import Mathlib

/-!
# greenify: cooperative wrappers around blocking I/O primitives

A shallow embedding of `src/libgreenify.c`.

* The operating system is an explicit state `OS ω`: the status flags of every
  descriptor, the thread's `errno`, and an arbitrary remainder `ω` (file contents,
  socket buffers, scheduler state, the memory behind the buffers passed by pointer).
* The primitives the source calls but does not define (`connect`, `read`, `write`,
  `recv`, `send`, `poll`, what `fcntl` does to `errno`, what `fprintf` does to the OS
  state) are the fields of `Env`: arbitrary deterministic functions of the OS state.
  `fcntl(F_GETFL)` reads and `fcntl(F_SETFL)` overwrites the flags of its descriptor.
* The wait callback is an arbitrary function of the OS state as well; it cannot change
  `g_wait_callback`.
* The constants the source takes from the system headers are the fields of `Headers`.
* Every call that leaves the library is appended to a ghost `log`, so that the
  number, order and arguments of the calls can be stated.
* The `do ... while` loops have no bound in the source; here they take a `fuel`
  (the number of attempts allowed) and report `Fault.out_of_fuel` when it runs out.
* C `int`/`ssize_t` values are `Int`: the source performs no arithmetic on them, and the
  conversions `int → ssize_t → int` it performs are value preserving on `int` values.
-/

namespace Greenify

/-! ## Constants -/

/-- Values of the constants that the source takes from `<fcntl.h>`, `<errno.h>` and `<poll.h>`. -/
structure Headers where
  O_NONBLOCK : Int
  EWOULDBLOCK : Int
  EAGAIN : Int
  EALREADY : Int
  EINPROGRESS : Int
  POLLIN : Int
  POLLPRI : Int
  POLLOUT : Int

/-- The constant `EVENT_READ`, defined as `0x01`. -/
def EVENT_READ : Int := 0x01

/-- The constant `EVENT_WRITE`, defined as `0x02`. -/
def EVENT_WRITE : Int := 0x02

/-! ## Data -/

/-- The C `struct greenify_watcher`: the two fields that `callback_single_watcher` fills in. -/
structure greenify_watcher where
  fd : Int
  events : Int
deriving DecidableEq, Repr

/-- The C `struct pollfd`. -/
structure pollfd where
  fd : Int
  events : Int
  revents : Int
deriving DecidableEq, Repr

/-- One of the five wrapped operations together with its argument list.
Pointers (`address`, `buf`, `buffer`) are abstract addresses. -/
inductive IoCall where
  | connect (socket : Int) (address : Nat) (address_len : Nat)
  | read (fildes : Int) (buf : Nat) (nbyte : Nat)
  | write (fildes : Int) (buf : Nat) (nbyte : Nat)
  | recv (socket : Int) (buffer : Nat) (length : Nat) (flags : Int)
  | send (socket : Int) (buffer : Nat) (length : Nat) (flags : Int)
deriving DecidableEq, Repr

/-- The descriptor a wrapped operation works on (its first argument). -/
def IoCall.fd : IoCall → Int
  | .connect socket _ _ => socket
  | .read fildes _ _ => fildes
  | .write fildes _ _ => fildes
  | .recv socket _ _ _ => socket
  | .send socket _ _ _ => socket

/-- Ways in which a run of the model stops without a return value. -/
inductive Fault where
  | assert_failed
  | out_of_fuel
  | out_of_bounds
deriving DecidableEq, Repr

/-- The two messages `green_poll` prints to `stderr`. -/
inductive Warning where
  | only_one_fd
  | unsupported_events (events : Int)
deriving DecidableEq, Repr

/-- The state of the operating system as far as the library can observe or change it. -/
structure OS (ω : Type) where
  flags : Int → Int
  errno : Int
  ext : ω

/-- The type `greenify_wait_callback_func_t`: called with the watcher array, its length and a
timeout; returns an `int` and may change the OS state in any way. -/
abbrev Callback (ω : Type) := List greenify_watcher → Int → Int → OS ω → Int × OS ω

/-- The primitives the library calls but does not define. -/
structure Env (ω : Type) where
  /-- The real `connect`/`read`/`write`/`recv`/`send`: return value and new OS state. -/
  io : IoCall → OS ω → Int × OS ω
  /-- The real `poll(fds, nfds, timeout)`. -/
  poll : List pollfd → Nat → Int → OS ω → Int × OS ω
  /-- Value of `errno` after `fcntl(fd, F_GETFL, 0)`. -/
  getfl_errno : Int → OS ω → Int
  /-- Value of `errno` after `fcntl(fd, F_SETFL, flags)`. -/
  setfl_errno : Int → Int → OS ω → Int
  /-- Effect of `fprintf(stderr, ...)` on the OS state. -/
  fprintf_stderr : Warning → OS ω → OS ω

/-- A call that leaves the library, as recorded in the ghost log. An `attempt` records
the call, the status flags of its descriptor when it was issued, its return value and
the `errno` it left. -/
inductive Event where
  | getfl (fd : Int)
  | setfl (fd : Int) (flags : Int)
  | attempt (c : IoCall) (fl : Int) (ret : Int) (err : Int)
  | wait (watchers : List greenify_watcher) (nwatchers : Int) (timeout : Int)
  | warn (m : Warning)
  | poll (fds : List pollfd) (nfds : Nat) (timeout : Int)
deriving DecidableEq, Repr

/-- Program state: the OS, the global `g_wait_callback` (`none` is `NULL`) and the log. -/
structure World (ω : Type) where
  os : OS ω
  g_wait_callback : Option (Callback ω)
  log : List Event

/-- Outcome of a library function: its return value (or a fault) and the state it leaves. -/
abbrev Res (ω : Type) (α : Type) := Except Fault α × World ω

variable {ω : Type}

/-! ## Calls into the environment -/

/-- The call `fcntl(fd, F_GETFL, 0)`: returns the flags of `fd`. -/
def fcntl_getfl (E : Env ω) (fd : Int) (w : World ω) : Int × World ω :=
  (w.os.flags fd,
   { w with os := { w.os with errno := E.getfl_errno fd w.os },
            log := w.log ++ [Event.getfl fd] })

/-- The call `fcntl(fd, F_SETFL, flags)`: overwrites the flags of `fd`. -/
def fcntl_setfl (E : Env ω) (fd : Int) (flags : Int) (w : World ω) : World ω :=
  { w with os := { flags := Function.update w.os.flags fd flags,
                   errno := E.setfl_errno fd flags w.os,
                   ext := w.os.ext },
           log := w.log ++ [Event.setfl fd flags] }

/-- One call of the real operation `c`. -/
def sys_io (E : Env ω) (c : IoCall) (w : World ω) : Int × World ω :=
  let r := E.io c w.os
  (r.1, { w with os := r.2,
                 log := w.log ++ [Event.attempt c (w.os.flags c.fd) r.1 r.2.errno] })

/-- One call of the real `poll`. -/
def sys_poll (E : Env ω) (fds : List pollfd) (nfds : Nat) (timeout : Int) (w : World ω) :
    Int × World ω :=
  let r := E.poll fds nfds timeout w.os
  (r.1, { w with os := r.2, log := w.log ++ [Event.poll fds nfds timeout] })

/-- The call `fprintf(stderr, ...)`. -/
def fprintf_stderr (E : Env ω) (m : Warning) (w : World ω) : World ω :=
  { w with os := E.fprintf_stderr m w.os, log := w.log ++ [Event.warn m] }

/-- The assignment `errno = s_err;` -/
def set_errno (e : Int) (w : World ω) : World ω :=
  { w with os := { w.os with errno := e } }

/-! ## The library -/

/-- The function `set_nonblock(fd, &old_flags)`: the return value (1 means the flags changed), the
value stored in `*old_flags`, and the new state. -/
def set_nonblock (K : Headers) (E : Env ω) (fd : Int) (w : World ω) : Int × Int × World ω :=
  let g := fcntl_getfl E fd w
  let old_flags := g.1
  if Int.land old_flags K.O_NONBLOCK ≠ 0 then
    (0, old_flags, g.2)
  else
    (1, old_flags, fcntl_setfl E fd (Int.lor old_flags K.O_NONBLOCK) g.2)

/-- The function `restore_flags(fd, flags)`. -/
def restore_flags (E : Env ω) (fd : Int) (flags : Int) (w : World ω) : World ω :=
  fcntl_setfl E fd flags w

/-- The function `greenify_set_wait_callback(callback)`. -/
def greenify_set_wait_callback (callback : Option (Callback ω)) (w : World ω) : World ω :=
  { w with g_wait_callback := callback }

/-- The function `callback_single_watcher(fd, events)`: asserts that a callback is registered, then
calls it with the one-element array, the count `1` and the timeout `-1`. -/
def callback_single_watcher (fd : Int) (events : Int) (w : World ω) : Res ω Int :=
  match w.g_wait_callback with
  | none => (.error .assert_failed, w)
  | some cb =>
    let watchers : List greenify_watcher := [{ fd := fd, events := events }]
    let r := cb watchers 1 (-1) w.os
    (.ok r.1, { w with os := r.2, log := w.log ++ [Event.wait watchers 1 (-1)] })

/-- The `do ... while` loop of `green_connect`; returns `(retval, s_err)`. -/
def green_connect_loop (K : Headers) (E : Env ω) (socket : Int) (address address_len : Nat) :
    Nat → World ω → Res ω (Int × Int)
  | 0, w => (.error .out_of_fuel, w)
  | fuel + 1, w =>
    let a := sys_io E (.connect socket address address_len) w
    let retval := a.1
    let s_err := a.2.os.errno
    if retval < 0 ∧ (s_err = K.EWOULDBLOCK ∨ s_err = K.EALREADY ∨ s_err = K.EINPROGRESS) then
      match callback_single_watcher socket EVENT_READ a.2 with
      | (.error e, w2) => (.error e, w2)
      | (.ok retval, w2) =>
        if retval = 0 then green_connect_loop K E socket address address_len fuel w2
        else (.ok (retval, s_err), w2)
    else (.ok (retval, s_err), a.2)

/-- The function `green_connect(socket, address, address_len)`. -/
def green_connect (K : Headers) (E : Env ω) (socket : Int) (address address_len : Nat)
    (fuel : Nat) (w : World ω) : Res ω Int :=
  match w.g_wait_callback with
  | none =>
    let a := sys_io E (.connect socket address address_len) w
    (.ok a.1, a.2)
  | some _ =>
    let s := set_nonblock K E socket w
    let flags := s.2.1
    if s.1 = 0 then
      let a := sys_io E (.connect socket address address_len) s.2.2
      (.ok a.1, a.2)
    else
      match green_connect_loop K E socket address address_len fuel s.2.2 with
      | (.error e, w2) => (.error e, w2)
      | (.ok (retval, s_err), w2) =>
        (.ok retval, set_errno s_err (restore_flags E socket flags w2))

/-- The `do ... while` loop of `green_read`; returns `(retval, s_err)`. -/
def green_read_loop (K : Headers) (E : Env ω) (fildes : Int) (buf nbyte : Nat) :
    Nat → World ω → Res ω (Int × Int)
  | 0, w => (.error .out_of_fuel, w)
  | fuel + 1, w =>
    let a := sys_io E (.read fildes buf nbyte) w
    let retval := a.1
    let s_err := a.2.os.errno
    if retval < 0 ∧ (s_err = K.EWOULDBLOCK ∨ s_err = K.EAGAIN) then
      match callback_single_watcher fildes EVENT_READ a.2 with
      | (.error e, w2) => (.error e, w2)
      | (.ok retval, w2) =>
        if retval = 0 then green_read_loop K E fildes buf nbyte fuel w2
        else (.ok (retval, s_err), w2)
    else (.ok (retval, s_err), a.2)

/-- The function `green_read(fildes, buf, nbyte)`. -/
def green_read (K : Headers) (E : Env ω) (fildes : Int) (buf nbyte : Nat)
    (fuel : Nat) (w : World ω) : Res ω Int :=
  match w.g_wait_callback with
  | none =>
    let a := sys_io E (.read fildes buf nbyte) w
    (.ok a.1, a.2)
  | some _ =>
    let s := set_nonblock K E fildes w
    let flags := s.2.1
    if s.1 = 0 then
      let a := sys_io E (.read fildes buf nbyte) s.2.2
      (.ok a.1, a.2)
    else
      match green_read_loop K E fildes buf nbyte fuel s.2.2 with
      | (.error e, w2) => (.error e, w2)
      | (.ok (retval, s_err), w2) =>
        (.ok retval, set_errno s_err (restore_flags E fildes flags w2))

/-- The `do ... while` loop of `green_write`; returns `(retval, s_err)`. -/
def green_write_loop (K : Headers) (E : Env ω) (fildes : Int) (buf nbyte : Nat) :
    Nat → World ω → Res ω (Int × Int)
  | 0, w => (.error .out_of_fuel, w)
  | fuel + 1, w =>
    let a := sys_io E (.write fildes buf nbyte) w
    let retval := a.1
    let s_err := a.2.os.errno
    if retval < 0 ∧ (s_err = K.EWOULDBLOCK ∨ s_err = K.EAGAIN) then
      match callback_single_watcher fildes EVENT_WRITE a.2 with
      | (.error e, w2) => (.error e, w2)
      | (.ok retval, w2) =>
        if retval = 0 then green_write_loop K E fildes buf nbyte fuel w2
        else (.ok (retval, s_err), w2)
    else (.ok (retval, s_err), a.2)

/-- The function `green_write(fildes, buf, nbyte)`. -/
def green_write (K : Headers) (E : Env ω) (fildes : Int) (buf nbyte : Nat)
    (fuel : Nat) (w : World ω) : Res ω Int :=
  match w.g_wait_callback with
  | none =>
    let a := sys_io E (.write fildes buf nbyte) w
    (.ok a.1, a.2)
  | some _ =>
    let s := set_nonblock K E fildes w
    let flags := s.2.1
    if s.1 = 0 then
      let a := sys_io E (.write fildes buf nbyte) s.2.2
      (.ok a.1, a.2)
    else
      match green_write_loop K E fildes buf nbyte fuel s.2.2 with
      | (.error e, w2) => (.error e, w2)
      | (.ok (retval, s_err), w2) =>
        (.ok retval, set_errno s_err (restore_flags E fildes flags w2))

/-- The `do ... while` loop of `green_recv`; returns `(retval, s_err)`. -/
def green_recv_loop (K : Headers) (E : Env ω) (socket : Int) (buffer length : Nat)
    (flags : Int) : Nat → World ω → Res ω (Int × Int)
  | 0, w => (.error .out_of_fuel, w)
  | fuel + 1, w =>
    let a := sys_io E (.recv socket buffer length flags) w
    let retval := a.1
    let s_err := a.2.os.errno
    if retval < 0 ∧ (s_err = K.EWOULDBLOCK ∨ s_err = K.EAGAIN) then
      match callback_single_watcher socket EVENT_READ a.2 with
      | (.error e, w2) => (.error e, w2)
      | (.ok retval, w2) =>
        if retval = 0 then green_recv_loop K E socket buffer length flags fuel w2
        else (.ok (retval, s_err), w2)
    else (.ok (retval, s_err), a.2)

/-- The function `green_recv(socket, buffer, length, flags)`. -/
def green_recv (K : Headers) (E : Env ω) (socket : Int) (buffer length : Nat) (flags : Int)
    (fuel : Nat) (w : World ω) : Res ω Int :=
  match w.g_wait_callback with
  | none =>
    let a := sys_io E (.recv socket buffer length flags) w
    (.ok a.1, a.2)
  | some _ =>
    let s := set_nonblock K E socket w
    let sock_flags := s.2.1
    if s.1 = 0 then
      let a := sys_io E (.recv socket buffer length flags) s.2.2
      (.ok a.1, a.2)
    else
      match green_recv_loop K E socket buffer length flags fuel s.2.2 with
      | (.error e, w2) => (.error e, w2)
      | (.ok (retval, s_err), w2) =>
        (.ok retval, set_errno s_err (restore_flags E socket sock_flags w2))

/-- The `do ... while` loop of `green_send`; returns `(retval, s_err)`. -/
def green_send_loop (K : Headers) (E : Env ω) (socket : Int) (buffer length : Nat)
    (flags : Int) : Nat → World ω → Res ω (Int × Int)
  | 0, w => (.error .out_of_fuel, w)
  | fuel + 1, w =>
    let a := sys_io E (.send socket buffer length flags) w
    let retval := a.1
    let s_err := a.2.os.errno
    if retval < 0 ∧ (s_err = K.EWOULDBLOCK ∨ s_err = K.EAGAIN) then
      match callback_single_watcher socket EVENT_WRITE a.2 with
      | (.error e, w2) => (.error e, w2)
      | (.ok retval, w2) =>
        if retval = 0 then green_send_loop K E socket buffer length flags fuel w2
        else (.ok (retval, s_err), w2)
    else (.ok (retval, s_err), a.2)

/-- The function `green_send(socket, buffer, length, flags)`. -/
def green_send (K : Headers) (E : Env ω) (socket : Int) (buffer length : Nat) (flags : Int)
    (fuel : Nat) (w : World ω) : Res ω Int :=
  match w.g_wait_callback with
  | none =>
    let a := sys_io E (.send socket buffer length flags) w
    (.ok a.1, a.2)
  | some _ =>
    let s := set_nonblock K E socket w
    let sock_flags := s.2.1
    if s.1 = 0 then
      let a := sys_io E (.send socket buffer length flags) s.2.2
      (.ok a.1, a.2)
    else
      match green_send_loop K E socket buffer length flags fuel s.2.2 with
      | (.error e, w2) => (.error e, w2)
      | (.ok (retval, s_err), w2) =>
        (.ok retval, set_errno s_err (restore_flags E socket sock_flags w2))

/-- The function `green_poll(fds, nfds, timeout)` (the `HAVE_POLL` part of the source). `fds` is the
caller's array; reading `fds[0]` of an empty array is `Fault.out_of_bounds`.

The source's last call is `callback_single_watcher(fd->fd, events, timeout)`, while
`callback_single_watcher` is defined with the two parameters `(fd, events)`: the third
argument has no parameter to bind to, and the callee passes the constant `-1`. The
value the callee returns is not used. -/
def green_poll (K : Headers) (E : Env ω) (fds : List pollfd) (nfds : Nat) (timeout : Int)
    (w : World ω) : Res ω Int :=
  match w.g_wait_callback with
  | none =>
    let p := sys_poll E fds nfds timeout w
    (.ok p.1, p.2)
  | some _ =>
    if nfds ≠ 1 then
      let p := sys_poll E fds nfds timeout (fprintf_stderr E .only_one_fd w)
      (.ok p.1, p.2)
    else
      match fds.head? with
      | none => (.error .out_of_bounds, w)
      | some fd =>
        if Int.land fd.events (Int.lnot (Int.lor (Int.lor K.POLLIN K.POLLPRI) K.POLLOUT)) ≠ 0 then
          let p := sys_poll E fds nfds timeout
            (fprintf_stderr E (.unsupported_events fd.events) w)
          (.ok p.1, p.2)
        else
          let events : Int := 0
          let events :=
            if Int.land fd.events K.POLLIN ≠ 0 ∨ Int.land fd.events K.POLLPRI ≠ 0 then
              Int.lor events EVENT_READ
            else events
          let events :=
            if Int.land fd.events K.POLLOUT ≠ 0 then Int.lor events EVENT_WRITE else events
          match callback_single_watcher fd.fd events w with
          | (.error e, w1) => (.error e, w1)
          | (.ok _, w1) =>
            let p := sys_poll E fds nfds 0 w1
            (.ok p.1, p.2)

/-- The wrapper for the operation `c`, called with `c`'s argument list. -/
def green (K : Headers) (E : Env ω) (c : IoCall) (fuel : Nat) (w : World ω) : Res ω Int :=
  match c with
  | .connect socket address address_len => green_connect K E socket address address_len fuel w
  | .read fildes buf nbyte => green_read K E fildes buf nbyte fuel w
  | .write fildes buf nbyte => green_write K E fildes buf nbyte fuel w
  | .recv socket buffer length flags => green_recv K E socket buffer length flags fuel w
  | .send socket buffer length flags => green_send K E socket buffer length flags fuel w

/-! ## The five wrappers as instances of one retry engine

The five wrappers are the same text up to the operation, the set of error codes in the
loop condition and the event passed to `callback_single_watcher`. The definitions below
state that shape once; `green_eq_wrap` proves that every wrapper is an instance of it. -/

/-- The error codes named in the loop condition of the wrapper of `c`. -/
def retry_set (K : Headers) : IoCall → List Int
  | .connect _ _ _ => [K.EWOULDBLOCK, K.EALREADY, K.EINPROGRESS]
  | .read _ _ _ => [K.EWOULDBLOCK, K.EAGAIN]
  | .write _ _ _ => [K.EWOULDBLOCK, K.EAGAIN]
  | .recv _ _ _ _ => [K.EWOULDBLOCK, K.EAGAIN]
  | .send _ _ _ _ => [K.EWOULDBLOCK, K.EAGAIN]

/-- The event the wrapper of `c` passes to `callback_single_watcher`. -/
def interest : IoCall → Int
  | .connect _ _ _ => EVENT_READ
  | .read _ _ _ => EVENT_READ
  | .write _ _ _ => EVENT_WRITE
  | .recv _ _ _ _ => EVENT_READ
  | .send _ _ _ _ => EVENT_WRITE

/-- The common shape of the five `do ... while` loops. -/
def retry_loop (K : Headers) (E : Env ω) (c : IoCall) : Nat → World ω → Res ω (Int × Int)
  | 0, w => (.error .out_of_fuel, w)
  | fuel + 1, w =>
    let a := sys_io E c w
    let retval := a.1
    let s_err := a.2.os.errno
    if retval < 0 ∧ s_err ∈ retry_set K c then
      match callback_single_watcher c.fd (interest c) a.2 with
      | (.error e, w2) => (.error e, w2)
      | (.ok retval, w2) =>
        if retval = 0 then retry_loop K E c fuel w2 else (.ok (retval, s_err), w2)
    else (.ok (retval, s_err), a.2)

/-- The common shape of the five wrappers. -/
def wrap (K : Headers) (E : Env ω) (c : IoCall) (fuel : Nat) (w : World ω) : Res ω Int :=
  match w.g_wait_callback with
  | none =>
    let a := sys_io E c w
    (.ok a.1, a.2)
  | some _ =>
    let s := set_nonblock K E c.fd w
    let flags := s.2.1
    if s.1 = 0 then
      let a := sys_io E c s.2.2
      (.ok a.1, a.2)
    else
      match retry_loop K E c fuel s.2.2 with
      | (.error e, w2) => (.error e, w2)
      | (.ok (retval, s_err), w2) =>
        (.ok retval, set_errno s_err (restore_flags E c.fd flags w2))

/-! ## Vocabulary for the statements -/

/-- Whether a logged event is an attempt of a wrapped operation. -/
def Event.is_attempt : Event → Bool
  | .attempt _ _ _ _ => true
  | _ => false

/-- Whether a logged event is a call of the wait callback. -/
def Event.is_wait : Event → Bool
  | .wait _ _ _ => true
  | _ => false

/-- Number of attempts of a wrapped operation in a log. -/
def attempts (l : List Event) : Nat := l.countP Event.is_attempt

/-- Number of calls of the wait callback in a log. -/
def waits (l : List Event) : Nat := l.countP Event.is_wait

/-- The state in which the wrapper of `c` enters its loop: after `set_nonblock`. -/
def entered (K : Headers) (E : Env ω) (c : IoCall) (w : World ω) : World ω :=
  (set_nonblock K E c.fd w).2.2

/-- The state after one attempt of `c` followed by one call of the wait callback. -/
def retry_round (E : Env ω) (c : IoCall) (w : World ω) : World ω :=
  (callback_single_watcher c.fd (interest c) (sys_io E c w).2).2

/-- The state in which the wrapper of `c`, entered in `w` on the cooperative path, makes
attempt number `k + 1`, provided the `k` attempts before it were each followed by a call
of the wait callback. -/
def attempt_state (K : Headers) (E : Env ω) (c : IoCall) (w : World ω) (k : Nat) : World ω :=
  (retry_round E c)^[k] (entered K E c w)

/-- What the underlying operation answers at attempt number `k + 1`: its return value and
the OS state (with `errno`) it leaves. -/
def attempt_result (K : Headers) (E : Env ω) (c : IoCall) (w : World ω) (k : Nat) :
    Int × OS ω :=
  E.io c (attempt_state K E c w k).os

/-! ## A concrete environment

A scripted operating system, used to run the wrappers on concrete inputs. -/

/-- The values of the header constants on Linux (x86-64). -/
def linux : Headers where
  O_NONBLOCK := 2048
  EWOULDBLOCK := 11
  EAGAIN := 11
  EALREADY := 114
  EINPROGRESS := 115
  POLLIN := 1
  POLLPRI := 2
  POLLOUT := 4

/-- An environment whose wrapped operations answer from a script: the remainder of the OS
state is the list of `(return value, errno)` answers still to be given; a negative answer
sets `errno`. `poll` reports no ready descriptor, and each `fcntl(F_SETFL)` overwrites
`errno` with 25. -/
def script_env : Env (List (Int × Int)) where
  io := fun _ os =>
    match os.ext with
    | [] => (0, os)
    | (r, e) :: rest => (r, { os with errno := if r < 0 then e else os.errno, ext := rest })
  poll := fun _ _ _ os => (0, os)
  getfl_errno := fun _ os => os.errno
  setfl_errno := fun _ _ _ => 25
  fprintf_stderr := fun _ os => os

/-- A wait callback that reports readiness at once (and overwrites `errno` with 4). -/
def ready_cb : Callback (List (Int × Int)) :=
  fun _ _ _ os => (0, { os with errno := 4 })

/-- A wait callback that fails with the value `v`. -/
def failing_cb (v : Int) : Callback (List (Int × Int)) :=
  fun _ _ _ os => (v, os)

/-- A wait callback whose answer depends on its arguments: it fails with `-7` when asked
to wait without a timeout (`-1`) on exactly one watcher, and reports readiness otherwise. -/
def choosy_cb : Callback (List (Int × Int)) :=
  fun _ n t os => (if n = 1 ∧ t = -1 then -7 else 0, os)

/-- A wait callback that reports readiness at once and, meanwhile, lets descriptor 9 be
switched to flags 2048 (another logical thread working on another descriptor). -/
def busy_cb : Callback (List (Int × Int)) :=
  fun _ _ _ os => (0, { os with flags := Function.update os.flags 9 2048, errno := 4 })

/-- A state in which every descriptor has status flags `fl`, `errno` is 0, the wrapped
operations will answer from `script`, and the log is empty. -/
def script_world (cb : Option (Callback (List (Int × Int)))) (fl : Int)
    (script : List (Int × Int)) : World (List (Int × Int)) where
  os := { flags := fun _ => fl, errno := 0, ext := script }
  g_wait_callback := cb
  log := []

/-! ## The wrappers are instances of the retry engine -/

theorem green_connect_loop_eq (K : Headers) (E : Env ω) (socket : Int)
    (address address_len : Nat) (fuel : Nat) (w : World ω) :
    green_connect_loop K E socket address address_len fuel w
      = retry_loop K E (.connect socket address address_len) fuel w := by
  induction fuel generalizing w with
  | zero => rfl
  | succ n ih =>
    simp only [green_connect_loop, retry_loop, retry_set, interest, IoCall.fd, ih,
      List.mem_cons, List.mem_singleton, List.not_mem_nil, or_false]

theorem green_read_loop_eq (K : Headers) (E : Env ω) (fildes : Int) (buf nbyte : Nat)
    (fuel : Nat) (w : World ω) :
    green_read_loop K E fildes buf nbyte fuel w
      = retry_loop K E (.read fildes buf nbyte) fuel w := by
  induction fuel generalizing w with
  | zero => rfl
  | succ n ih =>
    simp only [green_read_loop, retry_loop, retry_set, interest, IoCall.fd, ih,
      List.mem_cons, List.mem_singleton, List.not_mem_nil, or_false]

theorem green_write_loop_eq (K : Headers) (E : Env ω) (fildes : Int) (buf nbyte : Nat)
    (fuel : Nat) (w : World ω) :
    green_write_loop K E fildes buf nbyte fuel w
      = retry_loop K E (.write fildes buf nbyte) fuel w := by
  induction fuel generalizing w with
  | zero => rfl
  | succ n ih =>
    simp only [green_write_loop, retry_loop, retry_set, interest, IoCall.fd, ih,
      List.mem_cons, List.mem_singleton, List.not_mem_nil, or_false]

theorem green_recv_loop_eq (K : Headers) (E : Env ω) (socket : Int) (buffer length : Nat)
    (flags : Int) (fuel : Nat) (w : World ω) :
    green_recv_loop K E socket buffer length flags fuel w
      = retry_loop K E (.recv socket buffer length flags) fuel w := by
  induction fuel generalizing w with
  | zero => rfl
  | succ n ih =>
    simp only [green_recv_loop, retry_loop, retry_set, interest, IoCall.fd, ih,
      List.mem_cons, List.mem_singleton, List.not_mem_nil, or_false]

theorem green_send_loop_eq (K : Headers) (E : Env ω) (socket : Int) (buffer length : Nat)
    (flags : Int) (fuel : Nat) (w : World ω) :
    green_send_loop K E socket buffer length flags fuel w
      = retry_loop K E (.send socket buffer length flags) fuel w := by
  induction fuel generalizing w with
  | zero => rfl
  | succ n ih =>
    simp only [green_send_loop, retry_loop, retry_set, interest, IoCall.fd, ih,
      List.mem_cons, List.mem_singleton, List.not_mem_nil, or_false]

/-- Each of the five wrappers is the retry engine instantiated with its operation, its
retry set and its event. -/
theorem green_eq_wrap (K : Headers) (E : Env ω) (c : IoCall) (fuel : Nat) (w : World ω) :
    green K E c fuel w = wrap K E c fuel w := by
  cases c with
  | connect socket address address_len =>
    simp only [green, green_connect, wrap, green_connect_loop_eq, IoCall.fd]
  | read fildes buf nbyte =>
    simp only [green, green_read, wrap, green_read_loop_eq, IoCall.fd]
  | write fildes buf nbyte =>
    simp only [green, green_write, wrap, green_write_loop_eq, IoCall.fd]
  | recv socket buffer length flags =>
    simp only [green, green_recv, wrap, green_recv_loop_eq, IoCall.fd]
  | send socket buffer length flags =>
    simp only [green, green_send, wrap, green_send_loop_eq, IoCall.fd]

/-! ## Basic facts about the calls into the environment -/

@[simp] theorem sys_io_fst (E : Env ω) (c : IoCall) (w : World ω) :
    (sys_io E c w).1 = (E.io c w.os).1 := rfl

@[simp] theorem sys_io_os (E : Env ω) (c : IoCall) (w : World ω) :
    (sys_io E c w).2.os = (E.io c w.os).2 := rfl

@[simp] theorem sys_io_callback (E : Env ω) (c : IoCall) (w : World ω) :
    (sys_io E c w).2.g_wait_callback = w.g_wait_callback := rfl

@[simp] theorem sys_io_log (E : Env ω) (c : IoCall) (w : World ω) :
    (sys_io E c w).2.log
      = w.log ++ [Event.attempt c (w.os.flags c.fd) (E.io c w.os).1 (E.io c w.os).2.errno] :=
  rfl

@[simp] theorem fcntl_getfl_fst (E : Env ω) (fd : Int) (w : World ω) :
    (fcntl_getfl E fd w).1 = w.os.flags fd := rfl

@[simp] theorem fcntl_getfl_flags (E : Env ω) (fd : Int) (w : World ω) :
    (fcntl_getfl E fd w).2.os.flags = w.os.flags := rfl

@[simp] theorem fcntl_getfl_callback (E : Env ω) (fd : Int) (w : World ω) :
    (fcntl_getfl E fd w).2.g_wait_callback = w.g_wait_callback := rfl

@[simp] theorem fcntl_getfl_log (E : Env ω) (fd : Int) (w : World ω) :
    (fcntl_getfl E fd w).2.log = w.log ++ [Event.getfl fd] := rfl

@[simp] theorem fcntl_setfl_flags (E : Env ω) (fd fl : Int) (w : World ω) :
    (fcntl_setfl E fd fl w).os.flags = Function.update w.os.flags fd fl := rfl

@[simp] theorem fcntl_setfl_callback (E : Env ω) (fd fl : Int) (w : World ω) :
    (fcntl_setfl E fd fl w).g_wait_callback = w.g_wait_callback := rfl

@[simp] theorem fcntl_setfl_log (E : Env ω) (fd fl : Int) (w : World ω) :
    (fcntl_setfl E fd fl w).log = w.log ++ [Event.setfl fd fl] := rfl

/-- With a registered callback, `callback_single_watcher` is one call of it. -/
theorem callback_single_watcher_some {cb : Callback ω} (fd events : Int) (w : World ω)
    (h : w.g_wait_callback = some cb) :
    callback_single_watcher fd events w
      = (.ok (cb [{ fd := fd, events := events }] 1 (-1) w.os).1,
         { w with os := (cb [{ fd := fd, events := events }] 1 (-1) w.os).2,
                  log := w.log ++ [Event.wait [{ fd := fd, events := events }] 1 (-1)] }) := by
  simp only [callback_single_watcher, h]

/-- On a descriptor whose flags contain `O_NONBLOCK`, `set_nonblock` only reads the flags. -/
theorem set_nonblock_already (K : Headers) (E : Env ω) (fd : Int) (w : World ω)
    (h : Int.land (w.os.flags fd) K.O_NONBLOCK ≠ 0) :
    set_nonblock K E fd w = (0, w.os.flags fd, (fcntl_getfl E fd w).2) := by
  simp only [set_nonblock, fcntl_getfl_fst, h, ne_eq, not_false_eq_true, if_true]

/-- On a blocking descriptor, `set_nonblock` reads the flags and sets `O_NONBLOCK`. -/
theorem set_nonblock_blocking (K : Headers) (E : Env ω) (fd : Int) (w : World ω)
    (h : Int.land (w.os.flags fd) K.O_NONBLOCK = 0) :
    set_nonblock K E fd w
      = (1, w.os.flags fd,
         fcntl_setfl E fd (Int.lor (w.os.flags fd) K.O_NONBLOCK) (fcntl_getfl E fd w).2) := by
  simp only [set_nonblock, fcntl_getfl_fst, h, ne_eq, not_true_eq_false, if_false]

/-- The wrapper without a registered callback. -/
theorem wrap_no_callback (K : Headers) (E : Env ω) (c : IoCall) (fuel : Nat) (w : World ω)
    (h : w.g_wait_callback = none) :
    wrap K E c fuel w = (.ok (sys_io E c w).1, (sys_io E c w).2) := by
  simp only [wrap, h]

/-- The wrapper on a descriptor that is already non-blocking. -/
theorem wrap_already (K : Headers) (E : Env ω) (c : IoCall) (fuel : Nat) (w : World ω)
    (hcb : w.g_wait_callback ≠ none) (h : Int.land (w.os.flags c.fd) K.O_NONBLOCK ≠ 0) :
    wrap K E c fuel w
      = (.ok (sys_io E c (fcntl_getfl E c.fd w).2).1, (sys_io E c (fcntl_getfl E c.fd w).2).2) := by
  cases hw : w.g_wait_callback with
  | none => exact absurd hw hcb
  | some cb => simp only [wrap, hw, set_nonblock_already K E c.fd w h, if_true]

/-- The wrapper on the cooperative path: callback registered, descriptor blocking. -/
theorem wrap_coop (K : Headers) (E : Env ω) (c : IoCall) (fuel : Nat) (w : World ω)
    (hcb : w.g_wait_callback ≠ none) (h : Int.land (w.os.flags c.fd) K.O_NONBLOCK = 0) :
    wrap K E c fuel w
      = match retry_loop K E c fuel (entered K E c w) with
        | (.error e, w2) => (.error e, w2)
        | (.ok (retval, s_err), w2) =>
          (.ok retval, set_errno s_err (restore_flags E c.fd (w.os.flags c.fd) w2)) := by
  cases hw : w.g_wait_callback with
  | none => exact absurd hw hcb
  | some cb =>
    simp only [wrap, hw, entered, set_nonblock_blocking K E c.fd w h, one_ne_zero, if_false]

/-- The state in which the loop is entered on the cooperative path. -/
theorem entered_blocking (K : Headers) (E : Env ω) (c : IoCall) (w : World ω)
    (h : Int.land (w.os.flags c.fd) K.O_NONBLOCK = 0) :
    entered K E c w
      = fcntl_setfl E c.fd (Int.lor (w.os.flags c.fd) K.O_NONBLOCK) (fcntl_getfl E c.fd w).2 := by
  simp only [entered, set_nonblock_blocking K E c.fd w h]

/-! ## C1 -/

/-- C1. Transparent passthrough. For each of the five wrappers and every argument list:
with no callback registered, the wrapper is exactly one attempt of the underlying
operation in the caller's state (result, `errno` and the rest of the OS state are the
attempt's; the only logged call is that attempt, so the flags are not even queried);
with a callback registered and `O_NONBLOCK` already in the descriptor's flags, it is one
flag query followed by exactly one attempt, whose result and OS state are returned
unchanged (no call of the callback, no `F_SETFL`). -/
theorem C1_transparent_passthrough (K : Headers) (E : Env ω) (c : IoCall) (fuel : Nat)
    (w : World ω) :
    (w.g_wait_callback = none →
      (green K E c fuel w).1 = .ok (E.io c w.os).1 ∧
      (green K E c fuel w).2.os = (E.io c w.os).2 ∧
      (green K E c fuel w).2.log
        = w.log ++ [Event.attempt c (w.os.flags c.fd) (E.io c w.os).1 (E.io c w.os).2.errno]) ∧
    (w.g_wait_callback ≠ none → Int.land (w.os.flags c.fd) K.O_NONBLOCK ≠ 0 →
      (green K E c fuel w).1
        = .ok (E.io c { w.os with errno := E.getfl_errno c.fd w.os }).1 ∧
      (green K E c fuel w).2.os = (E.io c { w.os with errno := E.getfl_errno c.fd w.os }).2 ∧
      (green K E c fuel w).2.log
        = w.log ++ [Event.getfl c.fd,
            Event.attempt c (w.os.flags c.fd)
              (E.io c { w.os with errno := E.getfl_errno c.fd w.os }).1
              (E.io c { w.os with errno := E.getfl_errno c.fd w.os }).2.errno]) := by
  refine ⟨fun h => ?_, fun hcb h => ?_⟩
  · rw [green_eq_wrap, wrap_no_callback K E c fuel w h]
    exact ⟨rfl, rfl, rfl⟩
  · rw [green_eq_wrap, wrap_already K E c fuel w hcb h]
    refine ⟨rfl, rfl, ?_⟩
    simp only [sys_io_log, fcntl_getfl_log, fcntl_getfl_flags, List.append_assoc,
      List.singleton_append]
    rfl

/-- C1 at concrete inputs: `green_read` without a callback on a read that fails with
code 104, and `green_send` with a callback on a descriptor whose flags (2050) already
contain `O_NONBLOCK` and whose `send` would block (code 11). -/
theorem C1_transparent_passthrough_witness :
    ((script_world none 2 [(-1, 104)]).g_wait_callback = none ∧
      (green linux script_env (.read 3 0 10) 0 (script_world none 2 [(-1, 104)])).1
        = .ok (-1) ∧
      (green linux script_env (.read 3 0 10) 0 (script_world none 2 [(-1, 104)])).2.os.errno
        = 104 ∧
      (green linux script_env (.read 3 0 10) 0 (script_world none 2 [(-1, 104)])).2.log
        = [Event.attempt (.read 3 0 10) 2 (-1) 104]) ∧
    ((script_world (some ready_cb) 2050 [(-1, 11)]).g_wait_callback ≠ none ∧
      Int.land ((script_world (some ready_cb) 2050 [(-1, 11)]).os.flags 7) linux.O_NONBLOCK ≠ 0 ∧
      (green linux script_env (.send 7 0 10 0) 0 (script_world (some ready_cb) 2050 [(-1, 11)])).1
        = .ok (-1) ∧
      (green linux script_env (.send 7 0 10 0) 0
        (script_world (some ready_cb) 2050 [(-1, 11)])).2.os.errno = 11 ∧
      (green linux script_env (.send 7 0 10 0) 0 (script_world (some ready_cb) 2050 [(-1, 11)])).2.log
        = [Event.getfl 7, Event.attempt (.send 7 0 10 0) 2050 (-1) 11]) := by
  have h1 := (C1_transparent_passthrough linux script_env (.read 3 0 10) 0
    (script_world none 2 [(-1, 104)])).1 rfl
  have h2 := (C1_transparent_passthrough linux script_env (.send 7 0 10 0) 0
    (script_world (some ready_cb) 2050 [(-1, 11)])).2 (Option.some_ne_none _) (by decide)
  exact ⟨⟨rfl, h1.1, congrArg OS.errno h1.2.1, h1.2.2⟩,
    ⟨Option.some_ne_none _, by decide, h2.1, congrArg OS.errno h2.2.1, h2.2.2⟩⟩

/-! ## One iteration of the loop -/

@[simp] theorem retry_round_callback (E : Env ω) (c : IoCall) (w : World ω) :
    (retry_round E c w).g_wait_callback = w.g_wait_callback := by
  unfold retry_round callback_single_watcher
  cases h : (sys_io E c w).2.g_wait_callback with
  | none => rfl
  | some cb => exact h.symm

theorem retry_round_os {cb : Callback ω} (E : Env ω) (c : IoCall) (w : World ω)
    (hcb : w.g_wait_callback = some cb) :
    (retry_round E c w).os
      = (cb [{ fd := c.fd, events := interest c }] 1 (-1) (E.io c w.os).2).2 := by
  unfold retry_round
  rw [callback_single_watcher_some c.fd (interest c) _ (by simpa using hcb)]
  rfl

theorem retry_round_log {cb : Callback ω} (E : Env ω) (c : IoCall) (w : World ω)
    (hcb : w.g_wait_callback = some cb) :
    (retry_round E c w).log
      = w.log ++ [Event.attempt c (w.os.flags c.fd) (E.io c w.os).1 (E.io c w.os).2.errno,
          Event.wait [{ fd := c.fd, events := interest c }] 1 (-1)] := by
  unfold retry_round
  rw [callback_single_watcher_some c.fd (interest c) _ (by simpa using hcb)]
  simp only [sys_io_log, List.append_assoc, List.singleton_append]

/-- An attempt that does not fail with a retry code ends the loop. -/
theorem retry_loop_stop (K : Headers) (E : Env ω) (c : IoCall) (fuel : Nat) (w : World ω)
    (h : ¬((E.io c w.os).1 < 0 ∧ (E.io c w.os).2.errno ∈ retry_set K c)) :
    retry_loop K E c (fuel + 1) w
      = (.ok ((E.io c w.os).1, (E.io c w.os).2.errno), (sys_io E c w).2) := by
  simp only [retry_loop, sys_io_fst, sys_io_os, h, if_false]

/-- An attempt that fails with a retry code, followed by a callback that returns 0:
the loop goes round. -/
theorem retry_loop_retry {cb : Callback ω} (K : Headers) (E : Env ω) (c : IoCall)
    (fuel : Nat) (w : World ω) (hcb : w.g_wait_callback = some cb)
    (h : (E.io c w.os).1 < 0 ∧ (E.io c w.os).2.errno ∈ retry_set K c)
    (h0 : (cb [{ fd := c.fd, events := interest c }] 1 (-1) (E.io c w.os).2).1 = 0) :
    retry_loop K E c (fuel + 1) w = retry_loop K E c fuel (retry_round E c w) := by
  have hs : (sys_io E c w).2.g_wait_callback = some cb := by simpa using hcb
  simp only [retry_loop, sys_io_fst, sys_io_os, h, and_self, if_true, retry_round,
    callback_single_watcher_some c.fd (interest c) _ hs, h0]

/-- An attempt that fails with a retry code, followed by a callback that returns a
non-zero value: the loop ends with the callback's value. -/
theorem retry_loop_callback_failed {cb : Callback ω} (K : Headers) (E : Env ω) (c : IoCall)
    (fuel : Nat) (w : World ω) (hcb : w.g_wait_callback = some cb)
    (h : (E.io c w.os).1 < 0 ∧ (E.io c w.os).2.errno ∈ retry_set K c)
    (hv : (cb [{ fd := c.fd, events := interest c }] 1 (-1) (E.io c w.os).2).1 ≠ 0) :
    retry_loop K E c (fuel + 1) w
      = (.ok ((cb [{ fd := c.fd, events := interest c }] 1 (-1) (E.io c w.os).2).1,
            (E.io c w.os).2.errno), retry_round E c w) := by
  have hs : (sys_io E c w).2.g_wait_callback = some cb := by simpa using hcb
  simp only [retry_loop, sys_io_fst, sys_io_os, h, and_self, if_true, retry_round,
    callback_single_watcher_some c.fd (interest c) _ hs, hv, if_false]

/-! ## Counting calls in the log -/

@[simp] theorem attempts_append (l1 l2 : List Event) :
    attempts (l1 ++ l2) = attempts l1 + attempts l2 := by
  simp only [attempts, List.countP_append]

@[simp] theorem waits_append (l1 l2 : List Event) :
    waits (l1 ++ l2) = waits l1 + waits l2 := by
  simp only [waits, List.countP_append]

@[simp] theorem attempts_nil : attempts [] = 0 := rfl

@[simp] theorem waits_nil : waits [] = 0 := rfl

@[simp] theorem attempts_cons (e : Event) (l : List Event) :
    attempts (e :: l) = attempts l + (if e.is_attempt then 1 else 0) := by
  simp only [attempts, List.countP_cons]

@[simp] theorem waits_cons (e : Event) (l : List Event) :
    waits (e :: l) = waits l + (if e.is_wait then 1 else 0) := by
  simp only [waits, List.countP_cons]

@[simp] theorem set_errno_log (e : Int) (w : World ω) : (set_errno e w).log = w.log := rfl

@[simp] theorem set_errno_flags (e : Int) (w : World ω) :
    (set_errno e w).os.flags = w.os.flags := rfl

@[simp] theorem restore_flags_log (E : Env ω) (fd fl : Int) (w : World ω) :
    (restore_flags E fd fl w).log = w.log ++ [Event.setfl fd fl] := rfl

@[simp] theorem restore_flags_flags (E : Env ω) (fd fl : Int) (w : World ω) :
    (restore_flags E fd fl w).os.flags = Function.update w.os.flags fd fl := rfl

/-! ## Several rounds of the loop -/

theorem iterate_round_callback (E : Env ω) (c : IoCall) (k : Nat) (w : World ω) :
    ((retry_round E c)^[k] w).g_wait_callback = w.g_wait_callback := by
  induction k generalizing w with
  | zero => rfl
  | succ k ih => rw [Function.iterate_succ_apply, ih, retry_round_callback]

theorem iterate_round_attempts {cb : Callback ω} (E : Env ω) (c : IoCall) (k : Nat)
    (w : World ω) (hcb : w.g_wait_callback = some cb) :
    attempts ((retry_round E c)^[k] w).log = attempts w.log + k ∧
    waits ((retry_round E c)^[k] w).log = waits w.log + k := by
  induction k generalizing w with
  | zero => exact ⟨rfl, rfl⟩
  | succ k ih =>
    rw [Function.iterate_succ_apply]
    have h := ih (retry_round E c w) (by simpa using hcb)
    rw [h.1, h.2, retry_round_log E c w hcb]
    simp [Event.is_attempt, Event.is_wait]
    omega

theorem entered_callback (K : Headers) (E : Env ω) (c : IoCall) (w : World ω) :
    (entered K E c w).g_wait_callback = w.g_wait_callback := by
  unfold entered
  by_cases h : Int.land (w.os.flags c.fd) K.O_NONBLOCK = 0
  · rw [set_nonblock_blocking K E c.fd w h]; rfl
  · rw [set_nonblock_already K E c.fd w h]; rfl

theorem entered_log (K : Headers) (E : Env ω) (c : IoCall) (w : World ω)
    (h : Int.land (w.os.flags c.fd) K.O_NONBLOCK = 0) :
    (entered K E c w).log
      = w.log ++ [Event.getfl c.fd,
          Event.setfl c.fd (Int.lor (w.os.flags c.fd) K.O_NONBLOCK)] := by
  rw [entered_blocking K E c w h]
  simp only [fcntl_setfl_log, fcntl_getfl_log, List.append_assoc, List.singleton_append]

theorem attempt_state_callback (K : Headers) (E : Env ω) (c : IoCall) (w : World ω)
    (k : Nat) : (attempt_state K E c w k).g_wait_callback = w.g_wait_callback := by
  unfold attempt_state
  rw [iterate_round_callback, entered_callback]

theorem attempt_state_counts {cb : Callback ω} (K : Headers) (E : Env ω) (c : IoCall)
    (w : World ω) (k : Nat) (hcb : w.g_wait_callback = some cb)
    (h : Int.land (w.os.flags c.fd) K.O_NONBLOCK = 0) :
    attempts (attempt_state K E c w k).log = attempts w.log + k ∧
    waits (attempt_state K E c w k).log = waits w.log + k := by
  unfold attempt_state
  have hc : (entered K E c w).g_wait_callback = some cb := by
    rw [entered_callback]; exact hcb
  have hk := iterate_round_attempts E c k (entered K E c w) hc
  rw [hk.1, hk.2, entered_log K E c w h]
  simp [Event.is_attempt, Event.is_wait]

/-- When the first `N` attempts each fail with a retry code and the callback returns 0
after each of them, `N` units of fuel take the loop to the state of attempt `N + 1`. -/
theorem retry_loop_rounds {cb : Callback ω} (K : Headers) (E : Env ω) (c : IoCall)
    (N fuel : Nat) (w : World ω) (hcb : w.g_wait_callback = some cb)
    (hready : ∀ k, k < N →
      (cb [{ fd := c.fd, events := interest c }] 1 (-1)
        (E.io c ((retry_round E c)^[k] w).os).2).1 = 0)
    (hfail : ∀ k, k < N →
      (E.io c ((retry_round E c)^[k] w).os).1 < 0 ∧
      (E.io c ((retry_round E c)^[k] w).os).2.errno ∈ retry_set K c) :
    retry_loop K E c (N + fuel) w = retry_loop K E c fuel ((retry_round E c)^[N] w) := by
  induction N generalizing w with
  | zero => simp only [Nat.zero_add, Function.iterate_zero, id_eq]
  | succ N ih =>
    have e : N + 1 + fuel = (N + fuel) + 1 := by omega
    rw [e, retry_loop_retry K E c (N + fuel) w hcb (hfail 0 (Nat.succ_pos N))
      (hready 0 (Nat.succ_pos N)), Function.iterate_succ_apply]
    exact ih (retry_round E c w) (by simpa using hcb)
      (fun k hk => by
        have := hready (k + 1) (Nat.succ_lt_succ hk)
        rwa [Function.iterate_succ_apply] at this)
      (fun k hk => by
        have := hfail (k + 1) (Nat.succ_lt_succ hk)
        rwa [Function.iterate_succ_apply] at this)

/-! ## C2 -/

/-- C2. Exact attempt count. For every `N` and each of the five wrappers, on a blocking
descriptor with a registered wait callback that always returns 0: if the first `N`
attempts of the underlying operation fail (result `< 0`) with an error code in the
wrapper's retry set and attempt `N + 1` does not, then (with fuel for more than `N`
attempts) the wrapper returns the result of attempt `N + 1`, having made exactly `N + 1`
attempts and exactly `N` calls of the wait callback. -/
theorem C2_exact_attempt_count (K : Headers) (E : Env ω) (c : IoCall) (N fuel : Nat)
    (w : World ω) (cb : Callback ω)
    (hcb : w.g_wait_callback = some cb)
    (hblk : Int.land (w.os.flags c.fd) K.O_NONBLOCK = 0)
    (hready : ∀ ws n t os, (cb ws n t os).1 = 0)
    (hfail : ∀ k, k < N →
      (attempt_result K E c w k).1 < 0 ∧
      (attempt_result K E c w k).2.errno ∈ retry_set K c)
    (hlast : ¬((attempt_result K E c w N).1 < 0 ∧
      (attempt_result K E c w N).2.errno ∈ retry_set K c))
    (hfuel : N < fuel) :
    (green K E c fuel w).1 = .ok (attempt_result K E c w N).1 ∧
    attempts (green K E c fuel w).2.log = attempts w.log + (N + 1) ∧
    waits (green K E c fuel w).2.log = waits w.log + N := by
  obtain ⟨f, rfl⟩ : ∃ f, fuel = N + (f + 1) := ⟨fuel - N - 1, by omega⟩
  have hne : w.g_wait_callback ≠ none := by rw [hcb]; exact Option.some_ne_none cb
  have hc : (entered K E c w).g_wait_callback = some cb := by
    rw [entered_callback]; exact hcb
  have hloop := retry_loop_rounds K E c N (f + 1) (entered K E c w) hc
    (fun k _ => hready _ _ _ _) hfail
  have hstop := retry_loop_stop K E c f ((retry_round E c)^[N] (entered K E c w)) hlast
  have hcount := attempt_state_counts K E c w N hcb hblk
  rw [green_eq_wrap, wrap_coop K E c _ w hne hblk, hloop, hstop]
  refine ⟨rfl, ?_, ?_⟩
  · simp only [set_errno_log, restore_flags_log, sys_io_log, attempts_append]
    have h1 := hcount.1
    unfold attempt_state at h1
    rw [h1]
    simp [Event.is_attempt]
    omega
  · simp only [set_errno_log, restore_flags_log, sys_io_log, waits_append]
    have h2 := hcount.2
    unfold attempt_state at h2
    rw [h2]
    simp [Event.is_wait]

/-- C2 at the end-to-end scenario of the specification: `green_read` on a blocking descriptor (flags 2)
with a callback that reports readiness at once, primed with one would-block answer
(`-1`, code 11) followed by a 5-byte read, makes exactly 2 reads and 1 callback call and
returns 5. -/
theorem C2_exact_attempt_count_witness :
    (green linux script_env (.read 3 0 10) 2
      (script_world (some ready_cb) 2 [(-1, 11), (5, 0)])).1 = .ok 5 ∧
    attempts (green linux script_env (.read 3 0 10) 2
      (script_world (some ready_cb) 2 [(-1, 11), (5, 0)])).2.log = 2 ∧
    waits (green linux script_env (.read 3 0 10) 2
      (script_world (some ready_cb) 2 [(-1, 11), (5, 0)])).2.log = 1 :=
  C2_exact_attempt_count linux script_env (.read 3 0 10) 1 2
    (script_world (some ready_cb) 2 [(-1, 11), (5, 0)]) ready_cb rfl (by decide)
    (fun _ _ _ _ => rfl)
    (fun k hk => by
      obtain rfl : k = 0 := by omega
      exact ⟨by decide, by decide⟩)
    (by decide) (by decide)

/-! ## C3 -/

/-- C3. Collaborator failure is returned verbatim. For each of the five wrappers on a
blocking descriptor with a registered wait callback: if the first attempt of the
underlying operation fails with a code in the wrapper's retry set and the callback, on
the invocation the wrapper then makes (one watcher on the wrapper's descriptor, count 1,
timeout `-1`, in the state that attempt left), returns a non-zero value `v`, then the
wrapper returns exactly `v`, and the underlying operation has been attempted exactly
once. -/
theorem C3_callback_failure_verbatim (K : Headers) (E : Env ω) (c : IoCall) (fuel : Nat)
    (w : World ω) (cb : Callback ω) (v : Int)
    (hcb : w.g_wait_callback = some cb)
    (hblk : Int.land (w.os.flags c.fd) K.O_NONBLOCK = 0)
    (hfail : (attempt_result K E c w 0).1 < 0 ∧
      (attempt_result K E c w 0).2.errno ∈ retry_set K c)
    (hv : (cb [{ fd := c.fd, events := interest c }] 1 (-1)
      (attempt_result K E c w 0).2).1 = v)
    (hne : v ≠ 0)
    (hfuel : 0 < fuel) :
    (green K E c fuel w).1 = .ok v ∧
    attempts (green K E c fuel w).2.log = attempts w.log + 1 ∧
    waits (green K E c fuel w).2.log = waits w.log + 1 := by
  obtain ⟨f, rfl⟩ : ∃ f, fuel = f + 1 := ⟨fuel - 1, by omega⟩
  have hnone : w.g_wait_callback ≠ none := by rw [hcb]; exact Option.some_ne_none cb
  have hc : (entered K E c w).g_wait_callback = some cb := by
    rw [entered_callback]; exact hcb
  have hv1 : (cb [{ fd := c.fd, events := interest c }] 1 (-1)
      (E.io c (entered K E c w).os).2).1 = v := hv
  have hstep := retry_loop_callback_failed K E c f (entered K E c w) hc hfail
    (by rw [hv1]; exact hne)
  rw [green_eq_wrap, wrap_coop K E c _ w hnone hblk, hstep]
  refine ⟨by rw [← hv1], ?_, ?_⟩
  · simp only [set_errno_log, restore_flags_log, retry_round_log E c _ hc,
      entered_log K E c w hblk]
    simp [Event.is_attempt]
  · simp only [set_errno_log, restore_flags_log, retry_round_log E c _ hc,
      entered_log K E c w hblk]
    simp [Event.is_wait]

/-- C3 at a concrete input: `green_write` on a blocking descriptor whose `write` would
block, with a callback that fails with `-7` on the invocation the wrapper makes (and
would report readiness on others), returns `-7` after exactly one `write`. -/
theorem C3_callback_failure_verbatim_witness :
    (green linux script_env (.write 3 0 10) 5
      (script_world (some choosy_cb) 2 [(-1, 11), (10, 0)])).1 = .ok (-7) ∧
    attempts (green linux script_env (.write 3 0 10) 5
      (script_world (some choosy_cb) 2 [(-1, 11), (10, 0)])).2.log = 1 ∧
    waits (green linux script_env (.write 3 0 10) 5
      (script_world (some choosy_cb) 2 [(-1, 11), (10, 0)])).2.log = 1 :=
  C3_callback_failure_verbatim linux script_env (.write 3 0 10) 5
    (script_world (some choosy_cb) 2 [(-1, 11), (10, 0)]) choosy_cb (-7)
    rfl (by decide) ⟨by decide, by decide⟩ (by decide) (by decide) (by decide)

/-! ## Bits -/

theorem nat_lor_land_self (m n : Nat) : (m ||| n) &&& n = n := by
  apply Nat.eq_of_testBit_eq
  intro i
  simp only [Nat.testBit_and, Nat.testBit_or]
  cases m.testBit i <;> cases n.testBit i <;> rfl

theorem nat_ldiff_lor_self (m n : Nat) : Nat.ldiff n m ||| n = n := by
  apply Nat.eq_of_testBit_eq
  intro i
  simp only [Nat.testBit_or, Nat.testBit_ldiff]
  cases m.testBit i <;> cases n.testBit i <;> rfl

theorem nat_ldiff_ldiff_self (m n : Nat) : Nat.ldiff n (Nat.ldiff m n) = n := by
  apply Nat.eq_of_testBit_eq
  intro i
  simp only [Nat.testBit_ldiff]
  cases m.testBit i <;> cases n.testBit i <;> rfl

theorem nat_land_lor_self (m n : Nat) : (m &&& n) ||| n = n := by
  apply Nat.eq_of_testBit_eq
  intro i
  simp only [Nat.testBit_and, Nat.testBit_or]
  cases m.testBit i <;> cases n.testBit i <;> rfl

/-- In two's complement, `(a | b) & b = b`. -/
theorem int_lor_land_self (a b : Int) : Int.land (Int.lor a b) b = b := by
  cases a with
  | ofNat m =>
    cases b with
    | ofNat n =>
      simp only [Int.lor, Int.land, Int.ofNat_eq_coe]
      exact congrArg Int.ofNat (nat_lor_land_self m n)
    | negSucc n =>
      simp only [Int.lor, Int.land, Int.ofNat_eq_coe]
      exact congrArg Int.negSucc (nat_ldiff_lor_self m n)
  | negSucc m =>
    cases b with
    | ofNat n =>
      simp only [Int.lor, Int.land, Int.ofNat_eq_coe]
      exact congrArg Int.ofNat (nat_ldiff_ldiff_self m n)
    | negSucc n =>
      simp only [Int.lor, Int.land]
      exact congrArg Int.negSucc (nat_land_lor_self m n)

/-- The function `Nat.ldiff` in terms of operations that evaluate on numerals: `a & ~b = a ^ (a & b)`. -/
theorem nat_ldiff_eq_xor (a b : Nat) : Nat.ldiff a b = a ^^^ (a &&& b) := by
  apply Nat.eq_of_testBit_eq
  intro i
  simp only [Nat.testBit_ldiff, Nat.testBit_xor, Nat.testBit_and]
  cases a.testBit i <;> cases b.testBit i <;> rfl

/-- On Linux, `POLLIN` (1) has no bit outside `POLLIN|POLLPRI|POLLOUT`. -/
theorem linux_mask_pollin :
    Int.land 1 (Int.lnot (Int.lor (Int.lor linux.POLLIN linux.POLLPRI) linux.POLLOUT)) = 0 := by
  show ((Nat.ldiff 1 7 : Nat) : Int) = 0
  rw [nat_ldiff_eq_xor]
  decide

/-- On Linux, the event bit 8 (`POLLERR`) is outside `POLLIN|POLLPRI|POLLOUT`. -/
theorem linux_mask_pollerr :
    Int.land 8 (Int.lnot (Int.lor (Int.lor linux.POLLIN linux.POLLPRI) linux.POLLOUT)) ≠ 0 := by
  show ((Nat.ldiff 8 7 : Nat) : Int) ≠ 0
  rw [nat_ldiff_eq_xor]
  decide

/-! ## What a run of the loop does to the flags and to the log -/

/-- One round leaves the flags of a descriptor `d` as they were when neither the
operation nor the callback changes the flags of `d`. -/
theorem retry_round_flags_at {cb : Callback ω} (E : Env ω) (c : IoCall) (w : World ω)
    (d : Int) (hcb : w.g_wait_callback = some cb)
    (hio : ∀ os, (E.io c os).2.flags d = os.flags d)
    (hcbf : ∀ ws n t os, (cb ws n t os).2.flags d = os.flags d) :
    (retry_round E c w).os.flags d = w.os.flags d := by
  rw [retry_round_os E c w hcb, hcbf, hio]

/-- A run of the loop leaves the flags of a descriptor `d` as they were when neither the
operation nor the callback changes the flags of `d`. -/
theorem retry_loop_flags_at {cb : Callback ω} (K : Headers) (E : Env ω) (c : IoCall)
    (d : Int)
    (hio : ∀ os, (E.io c os).2.flags d = os.flags d)
    (hcbf : ∀ ws n t os, (cb ws n t os).2.flags d = os.flags d)
    (fuel : Nat) (w : World ω) (hcb : w.g_wait_callback = some cb) :
    (retry_loop K E c fuel w).2.os.flags d = w.os.flags d := by
  induction fuel generalizing w with
  | zero => rfl
  | succ fuel ih =>
    by_cases h : (E.io c w.os).1 < 0 ∧ (E.io c w.os).2.errno ∈ retry_set K c
    · by_cases h0 : (cb [{ fd := c.fd, events := interest c }] 1 (-1) (E.io c w.os).2).1 = 0
      · rw [retry_loop_retry K E c fuel w hcb h h0,
          ih (retry_round E c w) (by simpa using hcb)]
        exact retry_round_flags_at E c w d hcb hio hcbf
      · rw [retry_loop_callback_failed K E c fuel w hcb h h0]
        exact retry_round_flags_at E c w d hcb hio hcbf
    · rw [retry_loop_stop K E c fuel w h, sys_io_os, hio]

/-- The calls made by a run of the loop are attempts of `c` and calls of the callback
(in particular, no `fcntl`). -/
theorem retry_loop_events {cb : Callback ω} (K : Headers) (E : Env ω) (c : IoCall)
    (fuel : Nat) (w : World ω) (hcb : w.g_wait_callback = some cb) :
    ∃ body, (retry_loop K E c fuel w).2.log = w.log ++ body ∧
      ∀ e ∈ body, (∃ fl ret err, e = Event.attempt c fl ret err) ∨
        (∃ ws n t, e = Event.wait ws n t) := by
  induction fuel generalizing w with
  | zero => exact ⟨[], by simp [retry_loop], by simp⟩
  | succ fuel ih =>
    by_cases h : (E.io c w.os).1 < 0 ∧ (E.io c w.os).2.errno ∈ retry_set K c
    · by_cases h0 : (cb [{ fd := c.fd, events := interest c }] 1 (-1) (E.io c w.os).2).1 = 0
      · rw [retry_loop_retry K E c fuel w hcb h h0]
        obtain ⟨body, hl, hb⟩ := ih (retry_round E c w) (by simpa using hcb)
        refine ⟨Event.attempt c (w.os.flags c.fd) (E.io c w.os).1 (E.io c w.os).2.errno
            :: Event.wait [{ fd := c.fd, events := interest c }] 1 (-1) :: body, ?_, ?_⟩
        · rw [hl, retry_round_log E c w hcb]
          simp only [List.append_assoc, List.cons_append, List.nil_append]
        · intro e he
          simp only [List.mem_cons] at he
          rcases he with rfl | rfl | he
          · exact Or.inl ⟨_, _, _, rfl⟩
          · exact Or.inr ⟨_, _, _, rfl⟩
          · exact hb e he
      · rw [retry_loop_callback_failed K E c fuel w hcb h h0]
        refine ⟨_, retry_round_log E c w hcb, ?_⟩
        intro e he
        simp only [List.mem_cons, List.mem_singleton, List.not_mem_nil, or_false] at he
        rcases he with rfl | rfl
        · exact Or.inl ⟨_, _, _, rfl⟩
        · exact Or.inr ⟨_, _, _, rfl⟩
    · rw [retry_loop_stop K E c fuel w h]
      refine ⟨_, sys_io_log E c w, ?_⟩
      intro e he
      simp only [List.mem_singleton] at he
      exact Or.inl ⟨_, _, _, he⟩

/-- A run of the loop, when neither the operation nor the callback changes the flags of
the wrapper's descriptor: those flags are unchanged, and the calls made are attempts of
`c`, each issued under the flags the loop was entered with, and calls of the callback. -/
theorem retry_loop_trace {cb : Callback ω} (K : Headers) (E : Env ω) (c : IoCall)
    (hio : ∀ os, (E.io c os).2.flags c.fd = os.flags c.fd)
    (hcbf : ∀ ws n t os, (cb ws n t os).2.flags c.fd = os.flags c.fd)
    (fuel : Nat) (w : World ω) (hcb : w.g_wait_callback = some cb) :
    (retry_loop K E c fuel w).2.os.flags c.fd = w.os.flags c.fd ∧
    ∃ body, (retry_loop K E c fuel w).2.log = w.log ++ body ∧
      ∀ e ∈ body, (∃ ret err, e = Event.attempt c (w.os.flags c.fd) ret err) ∨
        (∃ ws n t, e = Event.wait ws n t) := by
  induction fuel generalizing w with
  | zero =>
    exact ⟨rfl, [], by simp [retry_loop], by simp⟩
  | succ fuel ih =>
    by_cases h : (E.io c w.os).1 < 0 ∧ (E.io c w.os).2.errno ∈ retry_set K c
    · by_cases h0 : (cb [{ fd := c.fd, events := interest c }] 1 (-1) (E.io c w.os).2).1 = 0
      · rw [retry_loop_retry K E c fuel w hcb h h0]
        obtain ⟨hf, body, hl, hb⟩ := ih (retry_round E c w) (by simpa using hcb)
        have hfl := retry_round_flags_at E c w c.fd hcb hio hcbf
        refine ⟨by rw [hf, hfl],
          Event.attempt c (w.os.flags c.fd) (E.io c w.os).1 (E.io c w.os).2.errno
            :: Event.wait [{ fd := c.fd, events := interest c }] 1 (-1) :: body, ?_, ?_⟩
        · rw [hl, retry_round_log E c w hcb]
          simp only [List.append_assoc, List.cons_append, List.nil_append]
        · intro e he
          rw [hfl] at hb
          simp only [List.mem_cons] at he
          rcases he with rfl | rfl | he
          · exact Or.inl ⟨_, _, rfl⟩
          · exact Or.inr ⟨_, _, _, rfl⟩
          · exact hb e he
      · rw [retry_loop_callback_failed K E c fuel w hcb h h0]
        refine ⟨retry_round_flags_at E c w c.fd hcb hio hcbf, _,
          retry_round_log E c w hcb, ?_⟩
        intro e he
        simp only [List.mem_cons, List.mem_singleton, List.not_mem_nil, or_false] at he
        rcases he with rfl | rfl
        · exact Or.inl ⟨_, _, rfl⟩
        · exact Or.inr ⟨_, _, _, rfl⟩
    · rw [retry_loop_stop K E c fuel w h]
      refine ⟨by rw [sys_io_os, hio], _, sys_io_log E c w, ?_⟩
      intro e he
      simp only [List.mem_singleton] at he
      exact Or.inl ⟨_, _, he⟩

/-- On the cooperative path, a wrapper that returns a value has left the loop with that
value and restored the flags. -/
theorem wrap_coop_ok (K : Headers) (E : Env ω) (c : IoCall) (fuel : Nat) (w : World ω)
    (r : Int) (hcb : w.g_wait_callback ≠ none)
    (h : Int.land (w.os.flags c.fd) K.O_NONBLOCK = 0)
    (hret : (wrap K E c fuel w).1 = .ok r) :
    ∃ s_err, (retry_loop K E c fuel (entered K E c w)).1 = .ok (r, s_err) ∧
      (wrap K E c fuel w).2
        = set_errno s_err (restore_flags E c.fd (w.os.flags c.fd)
            (retry_loop K E c fuel (entered K E c w)).2) := by
  rw [wrap_coop K E c fuel w hcb h] at hret ⊢
  rcases hl : retry_loop K E c fuel (entered K E c w) with ⟨res, w2⟩
  rw [hl] at hret
  cases res with
  | error e => cases hret
  | ok p =>
    obtain ⟨retval, s_err⟩ := p
    simp only [Except.ok.injEq] at hret
    subst hret
    exact ⟨s_err, rfl, rfl⟩

/-! ## C4 -/

/-- C4. Restoration invariant. For each of the five wrappers and every run that returns
(passthrough, success, genuine error or callback failure, after any number of retries):
(1) on the cooperative path, with no assumption on the operation or the callback, the
flags of the wrapper's descriptor on return equal its flags on entry, and the calls made
are: the flag query, `F_SETFL` with the saved flags plus `O_NONBLOCK`, then attempts and
callback calls only, and last a single `F_SETFL` with the saved flags;
(2) assuming that neither the underlying operation nor the wait callback changes the
flags of the wrapper's descriptor, on every path the flags of that descriptor on return
equal its flags on entry, and on the cooperative path every attempt is issued with
`O_NONBLOCK` set in the descriptor's flags;
(3) any descriptor `d` whose flags neither the operation nor the callback changes has on
return the flags it had on entry. -/
theorem C4_restoration_invariant (K : Headers) (E : Env ω) (c : IoCall) (fuel : Nat)
    (w : World ω) (r : Int)
    (hret : (green K E c fuel w).1 = .ok r) :
    (w.g_wait_callback ≠ none → Int.land (w.os.flags c.fd) K.O_NONBLOCK = 0 →
      (green K E c fuel w).2.os.flags c.fd = w.os.flags c.fd ∧
      ∃ body, (green K E c fuel w).2.log
          = w.log ++ [Event.getfl c.fd,
              Event.setfl c.fd (Int.lor (w.os.flags c.fd) K.O_NONBLOCK)]
            ++ body ++ [Event.setfl c.fd (w.os.flags c.fd)] ∧
        ∀ e ∈ body,
          (∃ fl ret err, e = Event.attempt c fl ret err) ∨
          (∃ ws n t, e = Event.wait ws n t)) ∧
    ((∀ os, (E.io c os).2.flags c.fd = os.flags c.fd) →
      (∀ cb, w.g_wait_callback = some cb →
        ∀ ws n t os, (cb ws n t os).2.flags c.fd = os.flags c.fd) →
      (green K E c fuel w).2.os.flags c.fd = w.os.flags c.fd ∧
      (w.g_wait_callback ≠ none → Int.land (w.os.flags c.fd) K.O_NONBLOCK = 0 →
        ∃ body, (green K E c fuel w).2.log
            = w.log ++ [Event.getfl c.fd,
                Event.setfl c.fd (Int.lor (w.os.flags c.fd) K.O_NONBLOCK)]
              ++ body ++ [Event.setfl c.fd (w.os.flags c.fd)] ∧
          ∀ e ∈ body,
            (∃ fl ret err, e = Event.attempt c fl ret err ∧
              Int.land fl K.O_NONBLOCK = K.O_NONBLOCK) ∨
            (∃ ws n t, e = Event.wait ws n t))) ∧
    (∀ d, (∀ os, (E.io c os).2.flags d = os.flags d) →
      (∀ cb, w.g_wait_callback = some cb →
        ∀ ws n t os, (cb ws n t os).2.flags d = os.flags d) →
      (green K E c fuel w).2.os.flags d = w.os.flags d) := by
  rw [green_eq_wrap] at hret ⊢
  have hef : Int.land (w.os.flags c.fd) K.O_NONBLOCK = 0 →
      (entered K E c w).os.flags
        = Function.update w.os.flags c.fd (Int.lor (w.os.flags c.fd) K.O_NONBLOCK) := by
    intro hblk
    rw [entered_blocking K E c w hblk]; rfl
  have h3 : ∀ d, (∀ os, (E.io c os).2.flags d = os.flags d) →
      (∀ cb, w.g_wait_callback = some cb →
        ∀ ws n t os, (cb ws n t os).2.flags d = os.flags d) →
      (wrap K E c fuel w).2.os.flags d = w.os.flags d := by
    intro d hio hcbf
    cases hcb : w.g_wait_callback with
    | none =>
      rw [wrap_no_callback K E c fuel w hcb]
      exact hio w.os
    | some cb =>
      have hne : w.g_wait_callback ≠ none := by rw [hcb]; exact Option.some_ne_none cb
      by_cases hblk : Int.land (w.os.flags c.fd) K.O_NONBLOCK = 0
      · obtain ⟨s_err, _, hw⟩ := wrap_coop_ok K E c fuel w r hne hblk hret
        rw [hw, set_errno_flags, restore_flags_flags]
        by_cases hd : d = c.fd
        · subst hd
          exact Function.update_same _ _ _
        · have hc : (entered K E c w).g_wait_callback = some cb := by
            rw [entered_callback]; exact hcb
          rw [Function.update_noteq hd,
            retry_loop_flags_at K E c d hio (hcbf cb hcb) fuel (entered K E c w) hc,
            hef hblk, Function.update_noteq hd]
      · rw [wrap_already K E c fuel w hne hblk]
        exact hio _
  refine ⟨?_, ?_, h3⟩
  · intro hne hblk
    obtain ⟨cb, hcb⟩ : ∃ cb, w.g_wait_callback = some cb :=
      Option.ne_none_iff_exists'.mp hne
    obtain ⟨s_err, _, hw⟩ := wrap_coop_ok K E c fuel w r hne hblk hret
    have hc : (entered K E c w).g_wait_callback = some cb := by
      rw [entered_callback]; exact hcb
    obtain ⟨body, hl, hb⟩ := retry_loop_events K E c fuel (entered K E c w) hc
    rw [hw]
    refine ⟨?_, body, ?_, hb⟩
    · rw [set_errno_flags, restore_flags_flags]
      exact Function.update_same _ _ _
    · rw [set_errno_log, restore_flags_log, hl, entered_log K E c w hblk]
  · intro hio hcbf
    refine ⟨h3 c.fd hio hcbf, ?_⟩
    intro hne hblk
    obtain ⟨cb, hcb⟩ : ∃ cb, w.g_wait_callback = some cb :=
      Option.ne_none_iff_exists'.mp hne
    obtain ⟨s_err, _, hw⟩ := wrap_coop_ok K E c fuel w r hne hblk hret
    have hc : (entered K E c w).g_wait_callback = some cb := by
      rw [entered_callback]; exact hcb
    obtain ⟨_, body, hl, hb⟩ :=
      retry_loop_trace K E c hio (hcbf cb hcb) fuel (entered K E c w) hc
    rw [hw]
    refine ⟨body, ?_, ?_⟩
    · rw [set_errno_log, restore_flags_log, hl, entered_log K E c w hblk]
    · intro e he
      rcases hb e he with ⟨ret, err, rfl⟩ | hwait
      · refine Or.inl ⟨_, ret, err, rfl, ?_⟩
        rw [hef hblk, Function.update_same]
        exact int_lor_land_self _ _
      · exact Or.inr hwait

theorem script_env_io_flags (c1 : IoCall) (os : OS (List (Int × Int))) :
    (script_env.io c1 os).2.flags = os.flags := by
  simp only [script_env]
  split <;> rfl

/-- C4 at a concrete input: `green_send` on the blocking descriptor 3 (flags 2) whose
first `send` would block and whose second sends 10 bytes, with a callback during which
the flags of another descriptor (9) change. The wrapper returns 10; the flags of 3 (and
of descriptor 5, which nothing touches) are as on entry; every `send` was issued with
`O_NONBLOCK` set, and the saved flags were written back once, at the end. -/
theorem C4_restoration_invariant_witness :
    (green linux script_env (.send 3 0 10 0) 5
      (script_world (some busy_cb) 2 [(-1, 11), (10, 0)])).1 = .ok 10 ∧
    ((green linux script_env (.send 3 0 10 0) 5
        (script_world (some busy_cb) 2 [(-1, 11), (10, 0)])).2.os.flags 3
        = (script_world (some busy_cb) 2 [(-1, 11), (10, 0)]).os.flags 3 ∧
      ∃ body, (green linux script_env (.send 3 0 10 0) 5
          (script_world (some busy_cb) 2 [(-1, 11), (10, 0)])).2.log
          = [] ++ [Event.getfl 3, Event.setfl 3 (Int.lor 2 2048)] ++ body
            ++ [Event.setfl 3 2] ∧
        ∀ e ∈ body,
          (∃ fl ret err, e = Event.attempt (.send 3 0 10 0) fl ret err) ∨
          (∃ ws n t, e = Event.wait ws n t)) ∧
    ((green linux script_env (.send 3 0 10 0) 5
        (script_world (some busy_cb) 2 [(-1, 11), (10, 0)])).2.os.flags 3
        = (script_world (some busy_cb) 2 [(-1, 11), (10, 0)]).os.flags 3 ∧
      ∃ body, (green linux script_env (.send 3 0 10 0) 5
          (script_world (some busy_cb) 2 [(-1, 11), (10, 0)])).2.log
          = [] ++ [Event.getfl 3, Event.setfl 3 (Int.lor 2 2048)] ++ body
            ++ [Event.setfl 3 2] ∧
        ∀ e ∈ body,
          (∃ fl ret err, e = Event.attempt (.send 3 0 10 0) fl ret err ∧
            Int.land fl 2048 = 2048) ∨
          (∃ ws n t, e = Event.wait ws n t)) ∧
    (green linux script_env (.send 3 0 10 0) 5
        (script_world (some busy_cb) 2 [(-1, 11), (10, 0)])).2.os.flags 5
      = (script_world (some busy_cb) 2 [(-1, 11), (10, 0)]).os.flags 5 ∧
    (green linux script_env (.send 3 0 10 0) 5
        (script_world (some busy_cb) 2 [(-1, 11), (10, 0)])).2.os.flags 9 = 2048 :=
  have h := C4_restoration_invariant linux script_env (.send 3 0 10 0) 5
    (script_world (some busy_cb) 2 [(-1, 11), (10, 0)]) 10 (by rfl)
  have hio : ∀ (d : Int) (os : OS (List (Int × Int))),
      (script_env.io (.send 3 0 10 0) os).2.flags d = os.flags d :=
    fun d os => congrFun (script_env_io_flags _ os) d
  have hcbf : ∀ d : Int, d ≠ 9 → ∀ cb,
      (script_world (some busy_cb) 2 [(-1, 11), (10, 0)]).g_wait_callback = some cb →
      ∀ ws n t os, (cb ws n t os).2.flags d = os.flags d :=
    fun d hd cb hcb ws n t os => by
      obtain rfl : busy_cb = cb := Option.some.inj hcb
      exact Function.update_noteq hd _ _
  have h2 := h.2.1 (hio 3) (hcbf 3 (by decide))
  ⟨by rfl, h.1 (Option.some_ne_none _) (by decide),
    ⟨h2.1, h2.2 (Option.some_ne_none _) (by decide)⟩,
    h.2.2 5 (hio 5) (hcbf 5 (by decide)), by rfl⟩

/-! ## The last attempt of a run of the loop -/

/-- A run of the loop: when it returns `(retval, s_err)`, the last attempt in the log is
one that left `errno = s_err`; and an attempt that failed with a code outside the retry
set is the last call of the run, whose result and code the loop returns. -/
theorem retry_loop_last {cb : Callback ω} (K : Headers) (E : Env ω) (c : IoCall)
    (fuel : Nat) (w : World ω) (hcb : w.g_wait_callback = some cb) :
    ∃ body, (retry_loop K E c fuel w).2.log = w.log ++ body ∧
      (∀ rv se, (retry_loop K E c fuel w).1 = .ok (rv, se) →
        ∃ pre fl ret post, body = pre ++ Event.attempt c fl ret se :: post ∧
          ∀ e ∈ post, e.is_attempt = false) ∧
      (∀ pre fl ret err post, body = pre ++ Event.attempt c fl ret err :: post →
        ret < 0 → err ∉ retry_set K c →
        post = [] ∧ (retry_loop K E c fuel w).1 = .ok (ret, err)) := by
  induction fuel generalizing w with
  | zero =>
    refine ⟨[], by simp [retry_loop], ?_, ?_⟩
    · intro rv se h
      simp [retry_loop] at h
    · intro pre fl ret err post h
      simp at h
  | succ fuel ih =>
    by_cases h : (E.io c w.os).1 < 0 ∧ (E.io c w.os).2.errno ∈ retry_set K c
    · by_cases h0 : (cb [{ fd := c.fd, events := interest c }] 1 (-1) (E.io c w.os).2).1 = 0
      · rw [retry_loop_retry K E c fuel w hcb h h0]
        obtain ⟨body, hl, h1, h2⟩ := ih (retry_round E c w) (by simpa using hcb)
        refine ⟨Event.attempt c (w.os.flags c.fd) (E.io c w.os).1 (E.io c w.os).2.errno
            :: Event.wait [{ fd := c.fd, events := interest c }] 1 (-1) :: body, ?_, ?_, ?_⟩
        · rw [hl, retry_round_log E c w hcb]
          simp only [List.append_assoc, List.cons_append, List.nil_append]
        · intro rv se hr
          obtain ⟨pre, fl, ret, post, hb, hp⟩ := h1 rv se hr
          exact ⟨_ :: _ :: pre, fl, ret, post, by rw [hb]; rfl, hp⟩
        · intro pre fl ret err post hb hret herr
          match pre, hb with
          | [], hb =>
            simp only [List.nil_append, List.cons.injEq, Event.attempt.injEq] at hb
            obtain ⟨⟨_, _, _, rfl⟩, _⟩ := hb
            exact absurd h.2 herr
          | [_], hb =>
            simp only [List.cons_append, List.nil_append, List.cons.injEq, false_and,
              and_false, reduceCtorEq] at hb
          | _ :: _ :: pre1, hb =>
            simp only [List.cons_append, List.cons.injEq] at hb
            exact h2 pre1 fl ret err post hb.2.2 hret herr
      · rw [retry_loop_callback_failed K E c fuel w hcb h h0]
        refine ⟨_, retry_round_log E c w hcb, ?_, ?_⟩
        · intro rv se hr
          simp only [Except.ok.injEq, Prod.mk.injEq] at hr
          obtain ⟨_, rfl⟩ := hr
          exact ⟨[], _, _, [Event.wait [{ fd := c.fd, events := interest c }] 1 (-1)], rfl,
            by simp [Event.is_attempt]⟩
        · intro pre fl ret err post hb hret herr
          match pre, hb with
          | [], hb =>
            simp only [List.nil_append, List.cons.injEq, Event.attempt.injEq] at hb
            obtain ⟨⟨_, _, _, rfl⟩, _⟩ := hb
            exact absurd h.2 herr
          | [_], hb =>
            simp only [List.cons_append, List.nil_append, List.cons.injEq, false_and,
              and_false, reduceCtorEq] at hb
          | _ :: _ :: pre1, hb =>
            simp at hb
    · rw [retry_loop_stop K E c fuel w h]
      refine ⟨_, sys_io_log E c w, ?_, ?_⟩
      · intro rv se hr
        simp only [Except.ok.injEq, Prod.mk.injEq] at hr
        obtain ⟨_, rfl⟩ := hr
        exact ⟨[], _, _, [], rfl, by simp⟩
      · intro pre fl ret err post hb hret herr
        match pre, hb with
        | [], hb =>
          simp only [List.nil_append, List.cons.injEq, Event.attempt.injEq] at hb
          obtain ⟨⟨_, _, rfl, rfl⟩, hp⟩ := hb
          exact ⟨hp.symm, rfl⟩
        | _ :: pre1, hb =>
          simp at hb

/-! ## C5 -/

/-- On the cooperative path the wrapper either stops with the fault of its loop, in the
state the loop left, or returns the loop's `retval` after restoring the flags and
setting `errno` to the loop's `s_err`. -/
theorem wrap_coop_cases (K : Headers) (E : Env ω) (c : IoCall) (fuel : Nat) (w : World ω)
    (hcb : w.g_wait_callback ≠ none) (h : Int.land (w.os.flags c.fd) K.O_NONBLOCK = 0) :
    (∃ e, (retry_loop K E c fuel (entered K E c w)).1 = .error e ∧
      (wrap K E c fuel w).1 = .error e ∧
      (wrap K E c fuel w).2 = (retry_loop K E c fuel (entered K E c w)).2) ∨
    (∃ rv se, (retry_loop K E c fuel (entered K E c w)).1 = .ok (rv, se) ∧
      (wrap K E c fuel w).1 = .ok rv ∧
      (wrap K E c fuel w).2
        = set_errno se (restore_flags E c.fd (w.os.flags c.fd)
            (retry_loop K E c fuel (entered K E c w)).2)) := by
  rw [wrap_coop K E c fuel w hcb h]
  rcases retry_loop K E c fuel (entered K E c w) with ⟨res, w2⟩
  cases res with
  | error e => exact Or.inl ⟨e, rfl, rfl, rfl⟩
  | ok p => exact Or.inr ⟨p.1, p.2, rfl, rfl, rfl⟩

/-- C5. Error code preservation. For each of the five wrappers on the cooperative path
(callback registered, descriptor initially blocking):
(1) in every run that returns, `errno` on return is the `errno` left by the last
attempt of the underlying operation, whatever the callback and the restoring `fcntl`
did to it afterwards;
(2) in every run, an attempt that failed with a code outside the wrapper's retry set is
followed by nothing but the restoring `F_SETFL` (no callback call, no further attempt),
and the wrapper returns that attempt's result with `errno` equal to that code;
(3) when the first `N` attempts fail with retry codes, the callback returns 0 on the
invocation made after each of them and attempt `N + 1` fails with a code outside the
retry set, the wrapper
(with fuel for more than `N` attempts) returns the result of attempt `N + 1` with
`errno` equal to its code. -/
theorem C5_errno_preserved (K : Headers) (E : Env ω) (c : IoCall) (fuel : Nat)
    (w : World ω) (cb : Callback ω)
    (hcb : w.g_wait_callback = some cb)
    (hblk : Int.land (w.os.flags c.fd) K.O_NONBLOCK = 0) :
    (∀ r, (green K E c fuel w).1 = .ok r →
      ∃ pre fl ret post,
        (green K E c fuel w).2.log
          = w.log ++ pre ++ Event.attempt c fl ret (green K E c fuel w).2.os.errno :: post ∧
        ∀ e ∈ post, e.is_attempt = false) ∧
    (∀ pre fl ret err post,
      (green K E c fuel w).2.log = w.log ++ pre ++ Event.attempt c fl ret err :: post →
      ret < 0 → err ∉ retry_set K c →
      post = [Event.setfl c.fd (w.os.flags c.fd)] ∧
        (green K E c fuel w).1 = .ok ret ∧
        (green K E c fuel w).2.os.errno = err) ∧
    (∀ N, N < fuel →
      (∀ k, k < N →
        ((attempt_result K E c w k).1 < 0 ∧
          (attempt_result K E c w k).2.errno ∈ retry_set K c) ∧
        (cb [{ fd := c.fd, events := interest c }] 1 (-1)
          (attempt_result K E c w k).2).1 = 0) →
      (attempt_result K E c w N).1 < 0 →
      (attempt_result K E c w N).2.errno ∉ retry_set K c →
      (green K E c fuel w).1 = .ok (attempt_result K E c w N).1 ∧
        (green K E c fuel w).2.os.errno = (attempt_result K E c w N).2.errno) := by
  rw [green_eq_wrap]
  have hne : w.g_wait_callback ≠ none := by rw [hcb]; exact Option.some_ne_none cb
  have hc : (entered K E c w).g_wait_callback = some cb := by
    rw [entered_callback]; exact hcb
  obtain ⟨body, hl, h1, h2⟩ := retry_loop_last K E c fuel (entered K E c w) hc
  have hcases := wrap_coop_cases K E c fuel w hne hblk
  refine ⟨?_, ?_, ?_⟩
  · intro r hret
    rcases hcases with ⟨e, _, hwe, _⟩ | ⟨rv, se, hloop, _, hw⟩
    · rw [hwe] at hret; cases hret
    · have herrno : (wrap K E c fuel w).2.os.errno = se := by rw [hw]; rfl
      obtain ⟨pre, fl, ret, post, hb, hp⟩ := h1 rv se hloop
      refine ⟨Event.getfl c.fd
          :: Event.setfl c.fd (Int.lor (w.os.flags c.fd) K.O_NONBLOCK) :: pre,
        fl, ret, post ++ [Event.setfl c.fd (w.os.flags c.fd)], ?_, ?_⟩
      · rw [herrno, hw, set_errno_log, restore_flags_log, hl, entered_log K E c w hblk, hb]
        simp only [List.append_assoc, List.cons_append, List.nil_append]
      · intro e he
        rcases List.mem_append.mp he with he | he
        · exact hp e he
        · rw [List.mem_singleton.mp he]; rfl
  · intro pre fl ret err post hdec hneg herr
    rcases hcases with ⟨e, hle, _, hw⟩ | ⟨rv, se, hloop, hres, hw⟩
    · rw [hw, hl, entered_log K E c w hblk, List.append_assoc, List.append_assoc] at hdec
      have hdec2 := List.append_cancel_left hdec
      match pre, hdec2 with
      | [], hd => simp at hd
      | [_], hd => simp at hd
      | _ :: _ :: pre1, hd =>
        simp only [List.cons_append, List.cons.injEq, List.nil_append] at hd
        have hok := (h2 pre1 fl ret err post hd.2.2 hneg herr).2
        rw [hle] at hok
        cases hok
    · have herrno : (wrap K E c fuel w).2.os.errno = se := by rw [hw]; rfl
      rw [hw, set_errno_log, restore_flags_log, hl, entered_log K E c w hblk,
        List.append_assoc, List.append_assoc, List.append_assoc] at hdec
      have hdec2 := List.append_cancel_left hdec
      match pre, hdec2 with
      | [], hd => simp at hd
      | [_], hd => simp at hd
      | _ :: _ :: pre1, hd =>
        simp only [List.cons_append, List.cons.injEq, List.nil_append] at hd
        rcases List.append_eq_append_iff.mp hd.2.2 with ⟨c1, _, hr⟩ | ⟨a1, hbody, hpost⟩
        · match c1, hr with
          | [], hr => simp at hr
          | _ :: c2, hr => simp at hr
        · match a1, hbody, hpost with
          | [], _, hpost => simp at hpost
          | x :: a2, hbody, hpost =>
            simp only [List.cons_append, List.cons.injEq] at hpost
            obtain ⟨rfl, hpost⟩ := hpost
            obtain ⟨ha2, hok⟩ := h2 pre1 fl ret err a2 hbody hneg herr
            rw [hloop] at hok
            simp only [Except.ok.injEq, Prod.mk.injEq] at hok
            subst ha2
            refine ⟨by simpa using hpost, ?_, ?_⟩
            · rw [hres, hok.1]
            · rw [herrno]; exact hok.2
  · intro N hfuel hfail hneg herr
    obtain ⟨f, rfl⟩ : ∃ f, fuel = N + (f + 1) := ⟨fuel - N - 1, by omega⟩
    have hloop := retry_loop_rounds K E c N (f + 1) (entered K E c w) hc
      (fun k hk => (hfail k hk).2) (fun k hk => (hfail k hk).1)
    have hstop := retry_loop_stop K E c f ((retry_round E c)^[N] (entered K E c w))
      (fun h => herr h.2)
    rw [wrap_coop K E c _ w hne hblk, hloop, hstop]
    exact ⟨rfl, rfl⟩

/-- C5 at a concrete input: `green_write` on a blocking descriptor whose first `write`
would block (code 11) and whose second fails with code 32. The callback overwrites
`errno` with 4 and the restoring `fcntl` with 25, yet the wrapper returns `-1` with
`errno = 32`. -/
theorem C5_errno_preserved_witness :
    ((green linux script_env (.write 3 0 10) 5
        (script_world (some ready_cb) 2 [(-1, 11), (-1, 32)])).1 = .ok (-1) ∧
      ∃ pre fl ret post,
        (green linux script_env (.write 3 0 10) 5
          (script_world (some ready_cb) 2 [(-1, 11), (-1, 32)])).2.log
          = [] ++ pre ++ Event.attempt (.write 3 0 10) fl ret
              (green linux script_env (.write 3 0 10) 5
                (script_world (some ready_cb) 2 [(-1, 11), (-1, 32)])).2.os.errno :: post ∧
        ∀ e ∈ post, e.is_attempt = false) ∧
    (∀ pre fl ret err post,
      (green linux script_env (.write 3 0 10) 5
        (script_world (some ready_cb) 2 [(-1, 11), (-1, 32)])).2.log
        = [] ++ pre ++ Event.attempt (.write 3 0 10) fl ret err :: post →
      ret < 0 → err ∉ retry_set linux (.write 3 0 10) →
      post = [Event.setfl 3 2] ∧
        (green linux script_env (.write 3 0 10) 5
          (script_world (some ready_cb) 2 [(-1, 11), (-1, 32)])).1 = .ok ret ∧
        (green linux script_env (.write 3 0 10) 5
          (script_world (some ready_cb) 2 [(-1, 11), (-1, 32)])).2.os.errno = err) ∧
    ((green linux script_env (.write 3 0 10) 5
        (script_world (some ready_cb) 2 [(-1, 11), (-1, 32)])).1
        = .ok (attempt_result linux script_env (.write 3 0 10)
            (script_world (some ready_cb) 2 [(-1, 11), (-1, 32)]) 1).1 ∧
      (green linux script_env (.write 3 0 10) 5
        (script_world (some ready_cb) 2 [(-1, 11), (-1, 32)])).2.os.errno
        = (attempt_result linux script_env (.write 3 0 10)
            (script_world (some ready_cb) 2 [(-1, 11), (-1, 32)]) 1).2.errno) ∧
    (attempt_result linux script_env (.write 3 0 10)
        (script_world (some ready_cb) 2 [(-1, 11), (-1, 32)]) 1).1 = -1 ∧
    (attempt_result linux script_env (.write 3 0 10)
        (script_world (some ready_cb) 2 [(-1, 11), (-1, 32)]) 1).2.errno = 32 :=
  have h := C5_errno_preserved linux script_env (.write 3 0 10) 5
    (script_world (some ready_cb) 2 [(-1, 11), (-1, 32)]) ready_cb rfl (by decide)
  ⟨⟨by rfl, h.1 (-1) (by rfl)⟩, h.2.1,
    h.2.2 1 (by decide)
      (fun k hk => by
        obtain rfl : k = 0 := by omega
        exact ⟨⟨by decide, by decide⟩, rfl⟩)
      (by decide) (by decide),
    by rfl, by rfl⟩

/-! ## Lower bounds on the calls of a run -/

/-- The log of a run of the loop extends the log it started from. -/
theorem retry_loop_log_extends {cb : Callback ω} (K : Headers) (E : Env ω) (c : IoCall)
    (fuel : Nat) (w : World ω) (hcb : w.g_wait_callback = some cb) :
    attempts w.log ≤ attempts (retry_loop K E c fuel w).2.log ∧
    waits w.log ≤ waits (retry_loop K E c fuel w).2.log := by
  obtain ⟨body, hl, _⟩ := retry_loop_last K E c fuel w hcb
  rw [hl, attempts_append, waits_append]
  exact ⟨Nat.le_add_right _ _, Nat.le_add_right _ _⟩

/-- With fuel left, a run of the loop makes at least one attempt. -/
theorem retry_loop_succ_attempts {cb : Callback ω} (K : Headers) (E : Env ω) (c : IoCall)
    (fuel : Nat) (w : World ω) (hcb : w.g_wait_callback = some cb) :
    attempts w.log + 1 ≤ attempts (retry_loop K E c (fuel + 1) w).2.log ∧
    waits w.log ≤ waits (retry_loop K E c (fuel + 1) w).2.log := by
  have hround := iterate_round_attempts E c 1 w hcb
  simp only [Function.iterate_succ, Function.iterate_zero, Function.comp_apply, id_eq]
    at hround
  by_cases h : (E.io c w.os).1 < 0 ∧ (E.io c w.os).2.errno ∈ retry_set K c
  · by_cases h0 : (cb [{ fd := c.fd, events := interest c }] 1 (-1) (E.io c w.os).2).1 = 0
    · rw [retry_loop_retry K E c fuel w hcb h h0]
      have hext := retry_loop_log_extends K E c fuel (retry_round E c w)
        (by simpa using hcb)
      omega
    · rw [retry_loop_callback_failed K E c fuel w hcb h h0]
      dsimp only
      omega
  · rw [retry_loop_stop K E c fuel w h]
    simp [Event.is_attempt, Event.is_wait]

/-- An attempt that fails with a retry code is followed by a call of the callback. -/
theorem retry_loop_succ_waits {cb : Callback ω} (K : Headers) (E : Env ω) (c : IoCall)
    (fuel : Nat) (w : World ω) (hcb : w.g_wait_callback = some cb)
    (h : (E.io c w.os).1 < 0 ∧ (E.io c w.os).2.errno ∈ retry_set K c) :
    waits w.log + 1 ≤ waits (retry_loop K E c (fuel + 1) w).2.log := by
  have hround := iterate_round_attempts E c 1 w hcb
  simp only [Function.iterate_succ, Function.iterate_zero, Function.comp_apply, id_eq]
    at hround
  by_cases h0 : (cb [{ fd := c.fd, events := interest c }] 1 (-1) (E.io c w.os).2).1 = 0
  · rw [retry_loop_retry K E c fuel w hcb h h0]
    have hext := retry_loop_log_extends K E c fuel (retry_round E c w) (by simpa using hcb)
    omega
  · rw [retry_loop_callback_failed K E c fuel w hcb h h0]
    dsimp only
    omega

/-- On the cooperative path the wrapper adds no attempt and no callback call to those
of its loop. -/
theorem wrap_coop_counts (K : Headers) (E : Env ω) (c : IoCall) (fuel : Nat) (w : World ω)
    (hcb : w.g_wait_callback ≠ none) (h : Int.land (w.os.flags c.fd) K.O_NONBLOCK = 0) :
    attempts (wrap K E c fuel w).2.log
      = attempts (retry_loop K E c fuel (entered K E c w)).2.log ∧
    waits (wrap K E c fuel w).2.log
      = waits (retry_loop K E c fuel (entered K E c w)).2.log := by
  rw [wrap_coop K E c fuel w hcb h]
  rcases retry_loop K E c fuel (entered K E c w) with ⟨res, w2⟩
  cases res with
  | error e => exact ⟨rfl, rfl⟩
  | ok p => simp [Event.is_attempt, Event.is_wait]

/-- The retry set of the four wrappers other than `green_connect`. -/
theorem retry_set_not_connect (K : Headers) (c : IoCall)
    (hc : ∀ socket address address_len, c ≠ .connect socket address address_len) :
    retry_set K c = [K.EWOULDBLOCK, K.EAGAIN] := by
  cases c with
  | connect socket address address_len => exact absurd rfl (hc socket address address_len)
  | read _ _ _ => rfl
  | write _ _ _ => rfl
  | recv _ _ _ _ => rfl
  | send _ _ _ _ => rfl

/-! ## C6 -/

/-- Every callback call made by a run of the loop has the shape built by
`callback_single_watcher` for the descriptor and the event of the wrapper. -/
theorem retry_loop_waits {cb : Callback ω} (K : Headers) (E : Env ω) (c : IoCall)
    (fuel : Nat) (w : World ω) (hcb : w.g_wait_callback = some cb) :
    ∃ body, (retry_loop K E c fuel w).2.log = w.log ++ body ∧
      ∀ ws n t, Event.wait ws n t ∈ body →
        ws = [{ fd := c.fd, events := interest c }] ∧ n = 1 ∧ t = -1 := by
  induction fuel generalizing w with
  | zero => exact ⟨[], by simp [retry_loop], by simp⟩
  | succ fuel ih =>
    by_cases h : (E.io c w.os).1 < 0 ∧ (E.io c w.os).2.errno ∈ retry_set K c
    · by_cases h0 : (cb [{ fd := c.fd, events := interest c }] 1 (-1) (E.io c w.os).2).1 = 0
      · rw [retry_loop_retry K E c fuel w hcb h h0]
        obtain ⟨body, hl, hb⟩ := ih (retry_round E c w) (by simpa using hcb)
        refine ⟨Event.attempt c (w.os.flags c.fd) (E.io c w.os).1 (E.io c w.os).2.errno
            :: Event.wait [{ fd := c.fd, events := interest c }] 1 (-1) :: body, ?_, ?_⟩
        · rw [hl, retry_round_log E c w hcb]
          simp only [List.append_assoc, List.cons_append, List.nil_append]
        · intro ws n t he
          simp only [List.mem_cons, reduceCtorEq, Event.wait.injEq, false_or] at he
          rcases he with ⟨h1, h2, h3⟩ | he
          · exact ⟨h1, h2, h3⟩
          · exact hb ws n t he
      · rw [retry_loop_callback_failed K E c fuel w hcb h h0]
        refine ⟨_, retry_round_log E c w hcb, ?_⟩
        intro ws n t he
        simp only [List.mem_cons, reduceCtorEq, Event.wait.injEq, false_or,
          List.mem_singleton, List.not_mem_nil, or_false] at he
        exact he
    · rw [retry_loop_stop K E c fuel w h]
      refine ⟨_, sys_io_log E c w, ?_⟩
      intro ws n t he
      simp only [List.mem_singleton, reduceCtorEq] at he

/-- On the cooperative path the wrapper's log is its loop's log, followed by the
restoring `F_SETFL` when the loop returned. -/
theorem wrap_coop_log (K : Headers) (E : Env ω) (c : IoCall) (fuel : Nat) (w : World ω)
    (hcb : w.g_wait_callback ≠ none) (h : Int.land (w.os.flags c.fd) K.O_NONBLOCK = 0) :
    (wrap K E c fuel w).2.log = (retry_loop K E c fuel (entered K E c w)).2.log ∨
    (wrap K E c fuel w).2.log
      = (retry_loop K E c fuel (entered K E c w)).2.log
          ++ [Event.setfl c.fd (w.os.flags c.fd)] := by
  rw [wrap_coop K E c fuel w hcb h]
  rcases retry_loop K E c fuel (entered K E c w) with ⟨res, w2⟩
  cases res with
  | error e => exact Or.inl rfl
  | ok p => exact Or.inr rfl

/-! ## C7 -/

/-- C7. Watcher request shape. Every call of the registered wait callback made by
`green_connect`, `green_read`, `green_write`, `green_recv` or `green_send` (in any run,
returning or not) passes exactly one watcher, with count 1, whose `fd` is the wrapper's
descriptor and whose events are `0x01` (readable) for connect, read and recv and `0x02`
(writable) for write and send, and the timeout `-1`. -/
theorem C7_watcher_shape (K : Headers) (E : Env ω) (c : IoCall) (fuel : Nat) (w : World ω) :
    ∃ calls, (green K E c fuel w).2.log = w.log ++ calls ∧
      ∀ ws n t, Event.wait ws n t ∈ calls →
        ws = [{ fd := c.fd,
                events := match c with
                  | .connect _ _ _ => 0x01
                  | .read _ _ _ => 0x01
                  | .recv _ _ _ _ => 0x01
                  | .write _ _ _ => 0x02
                  | .send _ _ _ _ => 0x02 }] ∧
        n = 1 ∧ t = -1 := by
  have hev : (match c with
      | .connect _ _ _ => (0x01 : Int)
      | .read _ _ _ => 0x01
      | .recv _ _ _ _ => 0x01
      | .write _ _ _ => 0x02
      | .send _ _ _ _ => 0x02) = interest c := by
    cases c <;> rfl
  rw [hev, green_eq_wrap]
  cases hcb : w.g_wait_callback with
  | none =>
    rw [wrap_no_callback K E c fuel w hcb]
    refine ⟨_, sys_io_log E c w, ?_⟩
    intro ws n t he
    simp only [List.mem_singleton, reduceCtorEq] at he
  | some cb =>
    have hne : w.g_wait_callback ≠ none := by rw [hcb]; exact Option.some_ne_none cb
    by_cases hblk : Int.land (w.os.flags c.fd) K.O_NONBLOCK = 0
    · have hc : (entered K E c w).g_wait_callback = some cb := by
        rw [entered_callback]; exact hcb
      obtain ⟨body, hl, hb⟩ := retry_loop_waits K E c fuel (entered K E c w) hc
      rcases wrap_coop_log K E c fuel w hne hblk with hlog | hlog
      · refine ⟨Event.getfl c.fd
            :: Event.setfl c.fd (Int.lor (w.os.flags c.fd) K.O_NONBLOCK) :: body, ?_, ?_⟩
        · rw [hlog, hl, entered_log K E c w hblk]
          simp only [List.append_assoc, List.cons_append, List.nil_append]
        · intro ws n t he
          simp only [List.mem_cons, reduceCtorEq, false_or] at he
          exact hb ws n t he
      · refine ⟨Event.getfl c.fd
            :: Event.setfl c.fd (Int.lor (w.os.flags c.fd) K.O_NONBLOCK)
            :: (body ++ [Event.setfl c.fd (w.os.flags c.fd)]), ?_, ?_⟩
        · rw [hlog, hl, entered_log K E c w hblk]
          simp only [List.append_assoc, List.cons_append, List.nil_append]
        · intro ws n t he
          simp only [List.mem_cons, reduceCtorEq, false_or, List.mem_append,
            List.mem_singleton, or_false, List.not_mem_nil] at he
          exact hb ws n t he
    · rw [wrap_already K E c fuel w hne hblk]
      refine ⟨[Event.getfl c.fd, Event.attempt c (w.os.flags c.fd)
          (E.io c (fcntl_getfl E c.fd w).2.os).1 (E.io c (fcntl_getfl E c.fd w).2.os).2.errno],
        ?_, ?_⟩
      · simp only [sys_io_log, fcntl_getfl_log, fcntl_getfl_flags, List.append_assoc,
          List.singleton_append]
      · intro ws n t he
        simp only [List.mem_cons, reduceCtorEq, false_or, List.mem_singleton,
          List.not_mem_nil] at he

/-! ## C8 -/

/-- C8. Poll shim fallback. For every call of `green_poll` with a registered wait
callback: if `nfds` is not 1, or `nfds` is 1 and the interest mask of the single entry
has a bit outside `POLLIN|POLLPRI|POLLOUT`, then `green_poll` prints a warning and calls
the real `poll` once with the caller's `fds`, `nfds` and `timeout`, returning its result
and the state it leaves; the wait callback is not called. -/
theorem C8_poll_fallback (K : Headers) (E : Env ω) (fds : List pollfd) (nfds : Nat)
    (timeout : Int) (w : World ω)
    (hcb : w.g_wait_callback ≠ none)
    (hshape : nfds ≠ 1 ∨
      (nfds = 1 ∧ ∃ fd rest, fds = fd :: rest ∧
        Int.land fd.events (Int.lnot (Int.lor (Int.lor K.POLLIN K.POLLPRI) K.POLLOUT)) ≠ 0)) :
    ∃ m,
      (green_poll K E fds nfds timeout w).1
        = .ok (E.poll fds nfds timeout (E.fprintf_stderr m w.os)).1 ∧
      (green_poll K E fds nfds timeout w).2.os
        = (E.poll fds nfds timeout (E.fprintf_stderr m w.os)).2 ∧
      (green_poll K E fds nfds timeout w).2.log
        = w.log ++ [Event.warn m, Event.poll fds nfds timeout] := by
  obtain ⟨cb, hsome⟩ : ∃ cb, w.g_wait_callback = some cb :=
    Option.ne_none_iff_exists'.mp hcb
  rcases hshape with hn | ⟨hn, fd, rest, hfds, hmask⟩
  · refine ⟨.only_one_fd, ?_⟩
    simp only [green_poll, hsome, hn, ne_eq, not_false_eq_true, if_true]
    refine ⟨rfl, rfl, ?_⟩
    simp only [sys_poll, fprintf_stderr, List.append_assoc, List.singleton_append]
  · refine ⟨.unsupported_events fd.events, ?_⟩
    subst hn hfds
    simp only [green_poll, hsome, ne_eq, not_true_eq_false, if_false, List.head?_cons, hmask,
      not_false_eq_true, if_true]
    refine ⟨rfl, rfl, ?_⟩
    simp only [sys_poll, fprintf_stderr, List.append_assoc, List.singleton_append]

/-- C8 at concrete inputs: a 2-descriptor array (the log holds the warning and one real
`poll` with the caller's arguments, and no callback call), and a single descriptor
asking for an event (8) outside `POLLIN|POLLPRI|POLLOUT`. -/
theorem C8_poll_fallback_witness :
    (green_poll linux script_env [⟨3, 1, 0⟩, ⟨4, 4, 0⟩] 2 1000
        (script_world (some ready_cb) 2 [])).2.log
      = [Event.warn .only_one_fd, Event.poll [⟨3, 1, 0⟩, ⟨4, 4, 0⟩] 2 1000] ∧
    (∃ m,
      (green_poll linux script_env [⟨3, 1, 0⟩, ⟨4, 4, 0⟩] 2 1000
          (script_world (some ready_cb) 2 [])).1
        = .ok (script_env.poll [⟨3, 1, 0⟩, ⟨4, 4, 0⟩] 2 1000
            (script_env.fprintf_stderr m (script_world (some ready_cb) 2 []).os)).1 ∧
      (green_poll linux script_env [⟨3, 1, 0⟩, ⟨4, 4, 0⟩] 2 1000
          (script_world (some ready_cb) 2 [])).2.os
        = (script_env.poll [⟨3, 1, 0⟩, ⟨4, 4, 0⟩] 2 1000
            (script_env.fprintf_stderr m (script_world (some ready_cb) 2 []).os)).2 ∧
      (green_poll linux script_env [⟨3, 1, 0⟩, ⟨4, 4, 0⟩] 2 1000
          (script_world (some ready_cb) 2 [])).2.log
        = [] ++ [Event.warn m, Event.poll [⟨3, 1, 0⟩, ⟨4, 4, 0⟩] 2 1000]) ∧
    (∃ m,
      (green_poll linux script_env [⟨3, 8, 0⟩] 1 1000
          (script_world (some ready_cb) 2 [])).1
        = .ok (script_env.poll [⟨3, 8, 0⟩] 1 1000
            (script_env.fprintf_stderr m (script_world (some ready_cb) 2 []).os)).1 ∧
      (green_poll linux script_env [⟨3, 8, 0⟩] 1 1000
          (script_world (some ready_cb) 2 [])).2.os
        = (script_env.poll [⟨3, 8, 0⟩] 1 1000
            (script_env.fprintf_stderr m (script_world (some ready_cb) 2 []).os)).2 ∧
      (green_poll linux script_env [⟨3, 8, 0⟩] 1 1000
          (script_world (some ready_cb) 2 [])).2.log
        = [] ++ [Event.warn m, Event.poll [⟨3, 8, 0⟩] 1 1000]) :=
  ⟨by rfl,
    C8_poll_fallback linux script_env [⟨3, 1, 0⟩, ⟨4, 4, 0⟩] 2 1000
      (script_world (some ready_cb) 2 []) (Option.some_ne_none _) (Or.inl (by decide)),
    C8_poll_fallback linux script_env [⟨3, 8, 0⟩] 1 1000
      (script_world (some ready_cb) 2 []) (Option.some_ne_none _)
      (Or.inr ⟨rfl, ⟨3, 8, 0⟩, [], rfl, linux_mask_pollerr⟩)⟩

/-! ## The cooperative path of `green_poll` -/

/-- With a registered callback, one descriptor and a supported interest mask,
`green_poll` calls `callback_single_watcher` once and then the real `poll` with timeout
0; the callback receives one watcher and the timeout `-1`, and its return value is not
used. -/
theorem green_poll_coop {cb : Callback ω} (K : Headers) (E : Env ω) (fd : pollfd)
    (rest : List pollfd) (timeout : Int) (w : World ω)
    (hcb : w.g_wait_callback = some cb)
    (hmask : Int.land fd.events
      (Int.lnot (Int.lor (Int.lor K.POLLIN K.POLLPRI) K.POLLOUT)) = 0) :
    ∃ events,
      events = Int.lor
        (if Int.land fd.events K.POLLIN ≠ 0 ∨ Int.land fd.events K.POLLPRI ≠ 0
          then Int.lor 0 EVENT_READ else 0)
        (if Int.land fd.events K.POLLOUT ≠ 0 then EVENT_WRITE else 0) ∧
      (green_poll K E (fd :: rest) 1 timeout w).1
        = .ok (E.poll (fd :: rest) 1 0
            (cb [{ fd := fd.fd, events := events }] 1 (-1) w.os).2).1 ∧
      (green_poll K E (fd :: rest) 1 timeout w).2.os
        = (E.poll (fd :: rest) 1 0
            (cb [{ fd := fd.fd, events := events }] 1 (-1) w.os).2).2 ∧
      (green_poll K E (fd :: rest) 1 timeout w).2.log
        = w.log ++ [Event.wait [{ fd := fd.fd, events := events }] 1 (-1),
            Event.poll (fd :: rest) 1 0] := by
  refine ⟨_, rfl, ?_⟩
  by_cases hout : Int.land fd.events K.POLLOUT ≠ 0
  · simp only [green_poll, hcb, ne_eq, not_true_eq_false, if_false, List.head?_cons, hmask,
      callback_single_watcher, hout, not_false_eq_true, if_true]
    refine ⟨rfl, rfl, ?_⟩
    simp only [sys_poll, List.append_assoc, List.singleton_append]
  · have hz : Int.lor
        (if Int.land fd.events K.POLLIN ≠ 0 ∨ Int.land fd.events K.POLLPRI ≠ 0
          then Int.lor 0 EVENT_READ else 0) 0
        = (if Int.land fd.events K.POLLIN ≠ 0 ∨ Int.land fd.events K.POLLPRI ≠ 0
          then Int.lor 0 EVENT_READ else 0) := by
      split <;> rfl
    simp only [green_poll, hcb, ne_eq, not_true_eq_false, if_false, List.head?_cons, hmask,
      callback_single_watcher, hout, hz]
    refine ⟨rfl, rfl, ?_⟩
    simp only [sys_poll, List.append_assoc, List.singleton_append]

/-! ## C9 -/

/-- C9, evaluated at `green_poll(fds = {fd 3, POLLIN}, nfds = 1, timeout = 1000)` with
a registered callback. The callback is called once, with one watcher on descriptor 3
for the readable event, and the real `poll` follows with timeout 0; but the timeout the
callback receives is `-1`, not the caller's 1000: `callback_single_watcher` has no
timeout parameter and always passes `-1`. -/
theorem C9_poll_timeout_not_forwarded :
    (green_poll linux script_env [⟨3, 1, 0⟩] 1 1000
        (script_world (some ready_cb) 2 [])).2.log
      = [Event.wait [{ fd := 3, events := 1 }] 1 (-1), Event.poll [⟨3, 1, 0⟩] 1 0] ∧
    ∀ ws n, Event.wait ws n 1000 ∉
      (green_poll linux script_env [⟨3, 1, 0⟩] 1 1000
        (script_world (some ready_cb) 2 [])).2.log := by
  obtain ⟨events, hev, _, _, hlog⟩ := green_poll_coop linux script_env ⟨3, 1, 0⟩ [] 1000
    (script_world (some ready_cb) 2 []) rfl linux_mask_pollin
  have h1 : events = 1 := by rw [hev]; decide
  subst h1
  rw [hlog]
  refine ⟨rfl, ?_⟩
  intro ws n hmem
  simp only [script_world, List.nil_append, List.mem_cons, Event.wait.injEq, reduceCtorEq,
    List.not_mem_nil, or_false] at hmem
  exact absurd hmem.2.2 (by decide)

/-! ## C10 -/

/-- C10 fails as stated: with a registered callback that fails with `-7`, one descriptor
and the supported mask `POLLIN`, `green_poll` returns 0 (the result of the real `poll`),
not `-7`. -/
theorem C10_poll_callback_failure_counterexample :
    (script_world (some (failing_cb (-7))) 2 []).g_wait_callback = some (failing_cb (-7)) ∧
    (∀ ws n t os, (failing_cb (-7) ws n t os).1 = -7) ∧
    (-7 : Int) < 0 ∧
    Int.land (1 : Int)
      (Int.lnot (Int.lor (Int.lor linux.POLLIN linux.POLLPRI) linux.POLLOUT)) = 0 ∧
    (green_poll linux script_env [⟨3, 1, 0⟩] 1 1000
        (script_world (some (failing_cb (-7))) 2 [])).1 = .ok 0 ∧
    (green_poll linux script_env [⟨3, 1, 0⟩] 1 1000
        (script_world (some (failing_cb (-7))) 2 [])).1 ≠ .ok (-7) := by
  obtain ⟨events, _, hres, _, _⟩ := green_poll_coop linux script_env ⟨3, 1, 0⟩ [] 1000
    (script_world (some (failing_cb (-7))) 2 []) rfl linux_mask_pollin
  refine ⟨rfl, fun _ _ _ _ => rfl, by decide, linux_mask_pollin, ?_, ?_⟩
  · rw [hres]; rfl
  · rw [hres]
    intro h
    have h0 : (0 : Int) = -7 := Except.ok.inj h
    exact absurd h0 (by decide)

/-- C10, amended. For every call of `green_poll` with a registered wait callback, exactly
one descriptor and a supported interest mask: whatever value the wait callback returns
(in particular a negative one), `green_poll` calls the real `poll` once afterwards with
timeout 0 on the caller's `fds`, in the state the callback left, and returns that
`poll`'s result; the callback's return value is discarded and plays no part in the
result. -/
theorem C10_poll_returns_real_poll (K : Headers) (E : Env ω) (fd : pollfd)
    (rest : List pollfd) (nfds : Nat) (timeout : Int) (w : World ω) (cb : Callback ω)
    (hcb : w.g_wait_callback = some cb)
    (hn : nfds = 1)
    (hmask : Int.land fd.events
      (Int.lnot (Int.lor (Int.lor K.POLLIN K.POLLPRI) K.POLLOUT)) = 0) :
    ∃ ws n t,
      (green_poll K E (fd :: rest) nfds timeout w).1
        = .ok (E.poll (fd :: rest) nfds 0 (cb ws n t w.os).2).1 ∧
      (green_poll K E (fd :: rest) nfds timeout w).2.log
        = w.log ++ [Event.wait ws n t, Event.poll (fd :: rest) nfds 0] := by
  subst hn
  obtain ⟨events, _, hres, _, hlog⟩ := green_poll_coop K E fd rest timeout w hcb hmask
  exact ⟨_, _, _, hres, hlog⟩

/-- The amended C10 at a concrete input: with a callback that fails with `-7`,
`green_poll` on one descriptor asking for `POLLIN` returns what the real `poll` with
timeout 0 returns. -/
theorem C10_poll_returns_real_poll_witness :
    ∃ ws n t,
      (green_poll linux script_env [⟨3, 1, 0⟩] 1 250
          (script_world (some (failing_cb (-7))) 2 [])).1
        = .ok (script_env.poll [⟨3, 1, 0⟩] 1 0
            (failing_cb (-7) ws n t (script_world (some (failing_cb (-7))) 2 []).os).2).1 ∧
      (green_poll linux script_env [⟨3, 1, 0⟩] 1 250
          (script_world (some (failing_cb (-7))) 2 [])).2.log
        = [] ++ [Event.wait ws n t, Event.poll [⟨3, 1, 0⟩] 1 0] :=
  C10_poll_returns_real_poll linux script_env ⟨3, 1, 0⟩ [] 1 250
    (script_world (some (failing_cb (-7))) 2 []) (failing_cb (-7)) rfl rfl linux_mask_pollin

end Greenify
